import Mathlib

set_option maxHeartbeats 1000000

/-! Shallow embedding of the pdf-processor document pipeline: the customer
detection heuristics, the template engine (field-extraction rule interpreter,
hardcoded value mappings, field validation, template selection and scoring),
the PDF text-extraction acceptance logic, and the processing orchestrator
branch structure.  JavaScript regular-expression matching, Date parsing and
eval are modelled as oracle parameters (JsEnv) since those engines are
external to the translated code; JS numbers are modelled as exact rationals
extended with NaN and signed infinities (signed zero is not modelled). -/

/-- Whitespace test matching the JavaScript \s class on the ASCII range. -/
def jsIsSpace (c : Char) : Bool :=
  c == ' ' || c == '\t' || c == '\n' || c == '\r' || c == '\x0b' || c == '\x0c'

/-- Split a character list at maximal runs of separator characters, keeping
empty boundary tokens, mirroring JavaScript split on a one-or-more regex. -/
def splitRuns (p : Char → Bool) : List Char → List (List Char)
  | [] => [[]]
  | c :: cs =>
    let r := splitRuns p cs
    if p c then
      match cs with
      | [] => [] :: r
      | d :: _ => if p d then r else [] :: r
    else
      match r with
      | t :: ts => (c :: t) :: ts
      | [] => [[c]]

/-- JavaScript text.split on a whitespace-run regular expression. -/
def jsSplitWs (s : String) : List String :=
  (splitRuns jsIsSpace s.data).map (fun l => String.mk l)

/-- Split a character list on one separator character, keeping empty
tokens, mirroring JavaScript split on a one-character string. -/
def splitOnChar (c : Char) : List Char → List (List Char)
  | [] => [[]]
  | d :: rest =>
    let r := splitOnChar c rest
    if d == c then [] :: r
    else
      match r with
      | t :: ts => (d :: t) :: ts
      | [] => [[d]]

/-- JavaScript text.split on a newline character. -/
def jsSplitNl (s : String) : List String :=
  (splitOnChar '\n' s.data).map (fun l => String.mk l)

/-- Auxiliary scan for the index of the first occurrence of a substring. -/
def jsIndexOfAux (needle : List Char) : List Char → Nat → Option Nat
  | [], i => if needle.isPrefixOf ([] : List Char) then some i else none
  | c :: t, i =>
    if needle.isPrefixOf (c :: t) then some i else jsIndexOfAux needle t (i + 1)

/-- JavaScript String.indexOf returning none instead of -1. -/
def jsIndexOf (hay sub : String) : Option Nat :=
  jsIndexOfAux sub.data hay.data 0

/-- JavaScript String.includes. -/
def jsIncludes (hay sub : String) : Bool :=
  (jsIndexOf hay sub).isSome

/-- JavaScript String.toLowerCase on the ASCII range. -/
def jsLower (s : String) : String :=
  String.mk (s.data.map Char.toLower)

/-- JavaScript String.trim on the ASCII range. -/
def jsTrim (s : String) : String :=
  String.mk (((s.data.dropWhile jsIsSpace).reverse.dropWhile jsIsSpace).reverse)

/-- JavaScript String.includes with a one-character needle
(String.prototype.contains-style membership). -/
def jsContainsChar (s : String) (c : Char) : Bool :=
  s.data.contains c

/-- Join with a separator (Array.prototype.join / template chaining). -/
def joinSep (sep : String) : List String → String
  | [] => ""
  | [x] => x
  | x :: y :: rest => x ++ sep ++ joinSep sep (y :: rest)

/-- Replace every occurrence of a nonempty pattern, left to right, as in
replace with a global regex of a literal string.  The fuel argument (the
input length suffices) keeps the recursion structural. -/
def replaceAllAux (pat repl : List Char) : Nat → List Char → List Char
  | _, [] => []
  | 0, l => l
  | fuel + 1, c :: rest =>
    if pat.isPrefixOf (c :: rest) && !pat.isEmpty then
      repl ++ replaceAllAux pat repl fuel (rest.drop (pat.length - 1))
    else c :: replaceAllAux pat repl fuel rest

/-- String version of replaceAllAux. -/
def replaceAll (s pat repl : String) : String :=
  String.mk (replaceAllAux pat.data repl.data s.data.length s.data)

/-- JavaScript String.replace with a plain-string search value: only the
first occurrence is replaced. -/
def jsReplaceFirst (s pat repl : String) : String :=
  match jsIndexOf s pat with
  | none => s
  | some i => String.mk (s.data.take i ++ repl.data ++ s.data.drop (i + pat.length))

/-- Remove every occurrence of a character, as in replace(/c/g, ""). -/
def jsRemoveAll (s : String) (c : Char) : String :=
  String.mk (s.data.filter (fun d => d != c))

/-- A JavaScript number outcome: NaN, a signed infinity, or a finite value
modelled exactly as a rational. -/
inductive JsFloat where
  | nan : JsFloat
  | inf : Bool → JsFloat
  | finite : ℚ → JsFloat
deriving DecidableEq

/-- Whether the number is NaN. -/
def JsFloat.isNaN : JsFloat → Bool
  | .nan => true
  | _ => false

/-- JavaScript addition on modelled numbers. -/
def JsFloat.add : JsFloat → JsFloat → JsFloat
  | .nan, _ => .nan
  | _, .nan => .nan
  | .inf a, .inf b => if a == b then .inf a else .nan
  | .inf a, .finite _ => .inf a
  | .finite _, .inf b => .inf b
  | .finite x, .finite y => .finite (x + y)

/-- JavaScript multiplication on modelled numbers. -/
def JsFloat.mul : JsFloat → JsFloat → JsFloat
  | .nan, _ => .nan
  | _, .nan => .nan
  | .inf a, .inf b => .inf (a != b)
  | .inf a, .finite y => if y == 0 then .nan else .inf (a != decide (y < 0))
  | .finite y, .inf a => if y == 0 then .nan else .inf (a != decide (y < 0))
  | .finite x, .finite y => .finite (x * y)

/-- JavaScript subtraction on modelled numbers. -/
def JsFloat.sub : JsFloat → JsFloat → JsFloat
  | .nan, _ => .nan
  | _, .nan => .nan
  | .inf a, .inf b => if a == b then .nan else .inf a
  | .inf a, .finite _ => .inf a
  | .finite _, .inf b => .inf (!b)
  | .finite x, .finite y => .finite (x - y)

/-- JavaScript division on modelled numbers (division of a nonzero finite
value by zero yields a signed infinity; zero by zero yields NaN). -/
def JsFloat.div : JsFloat → JsFloat → JsFloat
  | .nan, _ => .nan
  | _, .nan => .nan
  | .inf _, .inf _ => .nan
  | .inf a, .finite y => .inf (a != decide (y < 0))
  | .finite _, .inf _ => .finite 0
  | .finite x, .finite y =>
    if y == 0 then (if x == 0 then .nan else .inf (decide (x < 0))) else .finite (x / y)

/-- Numeric value of a list of decimal digit characters. -/
def digitsToNat (l : List Char) : Nat :=
  l.foldl (fun a c => a * 10 + (c.toNat - 48)) 0

/-- Exponent digits for parseFloat: an absent digit run means the exponent
marker is not consumed, so the exponent contribution is zero. -/
def jsParseExpDigits (ds : List Char) : Option Nat :=
  let d := ds.takeWhile Char.isDigit
  if d.isEmpty then none else some (digitsToNat d)

/-- Optional exponent part of a parseFloat literal. -/
def jsParseExp : List Char → Int
  | c :: rest =>
    if c == 'e' || c == 'E' then
      match rest with
      | '+' :: ds => (jsParseExpDigits ds).getD 0
      | '-' :: ds =>
        match jsParseExpDigits ds with
        | some n => -(n : Int)
        | none => 0
      | ds => (jsParseExpDigits ds).getD 0
    else 0
  | [] => 0

/-- Mantissa / exponent part of parseFloat after sign handling. -/
def jsParseFloatCore (cs : List Char) (neg : Bool) : JsFloat :=
  if ("Infinity".data).isPrefixOf cs then .inf neg
  else
    let intD := cs.takeWhile Char.isDigit
    let rest1 := cs.dropWhile Char.isDigit
    let fracPair :=
      match rest1 with
      | '.' :: r => (r.takeWhile Char.isDigit, r.dropWhile Char.isDigit)
      | _ => (([] : List Char), rest1)
    if intD.isEmpty && fracPair.1.isEmpty then .nan
    else
      let mant : ℚ :=
        (digitsToNat intD : ℚ) + (digitsToNat fracPair.1 : ℚ) / ((10 : ℚ) ^ fracPair.1.length)
      let q := mant * (10 : ℚ) ^ (jsParseExp fracPair.2)
      .finite (if neg then -q else q)

/-- JavaScript parseFloat: skip leading whitespace, optional sign, then the
longest numeric prefix (or Infinity); NaN when no digits are found. -/
def jsParseFloat (s : String) : JsFloat :=
  let cs := s.data.dropWhile jsIsSpace
  match cs with
  | '-' :: rest => jsParseFloatCore rest true
  | '+' :: rest => jsParseFloatCore rest false
  | rest => jsParseFloatCore rest false

/-- Least power of ten clearing the denominator, when one exists. -/
def decPow (q : ℚ) : Option Nat :=
  (List.range 21).find? (fun k => (q * ((10 : ℚ) ^ k)).den == 1)

/-- Decimal rendering of a rational, used for JavaScript number-to-string
conversion.  Rationals outside the decimal-fraction range (which do not
arise from the finite doubles the code manipulates) fall back to a
numerator/denominator rendering. -/
def qToJsString (q : ℚ) : String :=
  let sign := if q < 0 then "-" else ""
  let a := |q|
  if a.den == 1 then sign ++ toString a.num.natAbs
  else
    match decPow a with
    | some k =>
      let m := (a * ((10 : ℚ) ^ k)).num.natAbs
      let ip := m / 10 ^ k
      let fp := m % 10 ^ k
      let fpStr := toString fp
      let pad := String.mk (List.replicate (k - fpStr.length) '0')
      sign ++ toString ip ++ "." ++ pad ++ fpStr
    | none => sign ++ toString a.num.natAbs ++ "/" ++ toString a.den

/-- String rendering of a modelled JavaScript number. -/
def JsFloat.render : JsFloat → String
  | .nan => "NaN"
  | .inf false => "Infinity"
  | .inf true => "-Infinity"
  | .finite q => qToJsString q

/-- A JavaScript value flowing through the extraction pipeline: extracted
field values are strings or numbers. -/
inductive JsVal where
  | str : String → JsVal
  | num : JsFloat → JsVal
deriving DecidableEq

/-- JavaScript String(value) coercion. -/
def jsString : JsVal → String
  | .str s => s
  | .num x => x.render

/-- JavaScript falsiness for the modelled values. -/
def jsFalsy : JsVal → Bool
  | .str s => s == ""
  | .num .nan => true
  | .num (.inf _) => false
  | .num (.finite q) => q == 0

/-- Test for the regular expression ^[a-zA-Z]+$ . -/
def isAlphaToken (w : String) : Bool :=
  !w.data.isEmpty && w.data.all Char.isAlpha

/-- Test for the currency regular expression ^\$?\d+\.?\d*$ . -/
def currencyShape (s : String) : Bool :=
  let cs := match s.data with
    | '$' :: r => r
    | r => r
  let ds := cs.takeWhile Char.isDigit
  let rest := cs.dropWhile Char.isDigit
  !ds.isEmpty &&
    (match rest with
     | [] => true
     | '.' :: r => r.all Char.isDigit
     | _ => false)

/-- Oracle interface for the JavaScript primitives that cannot be embedded:
the regular-expression engine, Date.parse and eval.  An error result models
a thrown exception (e.g. an invalid pattern). -/
structure JsEnv where
  regexMatchGI : String → String → Except Unit (Option String)
  regexMatchCS : String → Bool → String → Except Unit Bool
  regexTestPlain : String → String → Except Unit Bool
  dateParseOk : String → Bool
  evalNumeric : String → Except Unit JsFloat

/-- An oracle assignment whose regular-expression and eval calls all throw
and whose Date.parse never succeeds; used to instantiate witnesses that do
not exercise those primitives. -/
def envTrivial : JsEnv :=
  { regexMatchGI := fun _ _ => .error ()
    regexMatchCS := fun _ _ _ => .error ()
    regexTestPlain := fun _ _ => .error ()
    dateParseOk := fun _ => false
    evalNumeric := fun _ => .error () }

/-! ## Customer detector (src/src/lib/customer-detector.ts) -/

/-- Pattern kinds of DetectionPattern. -/
inductive PatternType where
  | text | regex | position | header | footer
deriving DecidableEq

/-- A customer identification pattern. -/
structure DetectionPattern where
  type : PatternType
  pattern : String
  weight : ℚ
  caseSensitive : Bool
deriving DecidableEq

/-- A customer record (the fields the detector reads). -/
structure Customer where
  id : String
  name : String
deriving DecidableEq

/-- Detection methods reported in a result. -/
inductive DetectionMethod where
  | exact_match | fuzzy_match | pattern_match | ml_classification
deriving DecidableEq

/-- The detector result record. -/
structure CustomerDetectionResult where
  customerId : Option String
  customerName : Option String
  confidence : ℚ
  matchedPatterns : List String
  detectionMethod : DetectionMethod
deriving DecidableEq

/-- Keep the first-encountered maximum of a nonempty collection, mirroring
a JavaScript stable sort by descending score followed by taking element
zero (used both for detection candidates and template scores). -/
def best1 {α : Type} (score : α → ℚ) : α → List α → α
  | q, [] => q
  | q, p :: rest => best1 score (if score p > score q then p else q) rest

namespace CustomerDetector

/-- The common weighted-pattern loop shape: total weight, matched weight
and the matched pattern strings, in iteration order. -/
def weightScan (hitOf : DetectionPattern → Bool) :
    List DetectionPattern → ℚ × ℚ × List String
  | [] => (0, 0, [])
  | p :: rest =>
    let r := weightScan hitOf rest
    let hit := hitOf p
    (p.weight + r.1, ((if hit then p.weight else 0) + r.2.1,
      (if hit then [p.pattern] else []) ++ r.2.2))

/-- Hit test of the exact-match loop: literal containment with the
per-pattern case rule. -/
def exactHit (text : String) (p : DetectionPattern) : Bool :=
  let searchText := if p.caseSensitive then text else jsLower text
  let searchPattern := if p.caseSensitive then p.pattern else jsLower p.pattern
  jsIncludes searchText searchPattern

/-- Weighted scan over text-type patterns. -/
def exactScan (text : String) (l : List DetectionPattern) : ℚ × ℚ × List String :=
  weightScan (exactHit text) l

/-- checkExactMatch: weighted ratio of matching text-type patterns,
emitting the customer id only above the 0.5 threshold. -/
def checkExactMatch (text : String) (c : Customer) (patterns : List DetectionPattern) :
    CustomerDetectionResult :=
  let s := exactScan text (patterns.filter (fun p => p.type == PatternType.text))
  let confidence := if s.1 > 0 then s.2.1 / s.1 else 0
  { customerId := if confidence > 1/2 then some c.id else none
    customerName := if confidence > 1/2 then some c.name else none
    confidence := confidence
    matchedPatterns := s.2.2
    detectionMethod := .exact_match }

/-- Hit test of the regex loop: an oracle error models an invalid pattern,
which matches nothing (its weight still counts toward the total). -/
def regexHit (env : JsEnv) (text : String) (p : DetectionPattern) : Bool :=
  match env.regexMatchCS p.pattern p.caseSensitive text with
  | .ok true => true
  | _ => false

/-- Weighted scan over regex-type patterns. -/
def regexScan (env : JsEnv) (text : String) (l : List DetectionPattern) :
    ℚ × ℚ × List String :=
  weightScan (regexHit env text) l

/-- Hit test of the header/footer loop against the joined first or last
lines, with the per-pattern case rule. -/
def hfHit (headerText footerText : String) (p : DetectionPattern) : Bool :=
  let searchText := if p.type == PatternType.header then headerText else footerText
  let toSearch := if p.caseSensitive then searchText else jsLower searchText
  let toFind := if p.caseSensitive then p.pattern else jsLower p.pattern
  jsIncludes toSearch toFind

/-- Weighted scan over header/footer patterns. -/
def hfScan (headerText footerText : String) (l : List DetectionPattern) :
    ℚ × ℚ × List String :=
  weightScan (hfHit headerText footerText) l

/-- checkPatternMatch: weighted ratio over regex patterns plus header/footer
patterns (first and last five lines), threshold 0.6. -/
def checkPatternMatch (env : JsEnv) (text : String) (c : Customer)
    (patterns : List DetectionPattern) : CustomerDetectionResult :=
  let r := regexScan env text (patterns.filter (fun p => p.type == PatternType.regex))
  let lines := jsSplitNl text
  let k := min 5 lines.length
  let headerText := joinSep " " (lines.take k)
  let footerText := joinSep " " (lines.drop (lines.length - k))
  let h := hfScan headerText footerText
    (patterns.filter (fun p => p.type == PatternType.header || p.type == PatternType.footer))
  let totalWeight := r.1 + h.1
  let matchedWeight := r.2.1 + h.2.1
  let confidence := if totalWeight > 0 then matchedWeight / totalWeight else 0
  { customerId := if confidence > 3/5 then some c.id else none
    customerName := if confidence > 3/5 then some c.name else none
    confidence := confidence
    matchedPatterns := r.2.2 ++ h.2.2
    detectionMethod := .pattern_match }

/-- checkFuzzyMatch: tokenize the customer name on whitespace and count the
tokens longer than two characters appearing in the lower-cased text;
confidence is the matched ratio scaled by 0.8, threshold 0.5. -/
def checkFuzzyMatch (text : String) (c : Customer) : CustomerDetectionResult :=
  let words := jsSplitWs (jsLower c.name)
  let hits := words.filter (fun w => decide (2 < w.length) && jsIncludes (jsLower text) w)
  let confidence : ℚ :=
    if words.length > 0 then ((hits.length : ℚ) / (words.length : ℚ)) * (4/5) else 0
  { customerId := if confidence > 1/2 then some c.id else none
    customerName := if confidence > 1/2 then some c.name else none
    confidence := confidence
    matchedPatterns := hits
    detectionMethod := .fuzzy_match }

/-- checkFilenameMatch: 0.3 per customer-name token found in the lower-cased
filename, 0.4 per configured pattern found, capped at 0.9, threshold 0.5. -/
def checkFilenameMatch (fileName : String) (c : Customer)
    (patterns : List DetectionPattern) : CustomerDetectionResult :=
  let fileNameLower := jsLower fileName
  let nameWords := jsSplitWs (jsLower c.name)
  let nameHits := nameWords.filter (fun w => decide (2 < w.length) && jsIncludes fileNameLower w)
  let patHits := patterns.filter (fun p => jsIncludes fileNameLower (jsLower p.pattern))
  let raw : ℚ := (3/10) * nameHits.length + (2/5) * patHits.length
  let confidence := min raw (9/10)
  { customerId := if confidence > 1/2 then some c.id else none
    customerName := if confidence > 1/2 then some c.name else none
    confidence := confidence
    matchedPatterns := nameHits ++ patHits.map (fun p => p.pattern)
    detectionMethod := .fuzzy_match }

/-- The candidate results pooled across all customers, in encounter order:
for each customer the exact, pattern, fuzzy and filename heuristics each
contribute their result when its confidence is positive. -/
def candidateResults (customers : List (Customer × List DetectionPattern)) (env : JsEnv)
    (text : String) (fileName : Option String) : List CustomerDetectionResult :=
  customers.flatMap (fun cp =>
    (let e := checkExactMatch text cp.1 cp.2
     if e.confidence > 0 then [e] else []) ++
    (let pm := checkPatternMatch env text cp.1 cp.2
     if pm.confidence > 0 then [pm] else []) ++
    (let fz := checkFuzzyMatch text cp.1
     if fz.confidence > 0 then [fz] else []) ++
    (match fileName with
     | some fn =>
       let fm := checkFilenameMatch fn cp.1 cp.2
       if fm.confidence > 0 then [fm] else []
     | none => []))

/-- detectCustomer: pool all positive-confidence candidates, sort descending
by confidence (stable) and return the top one; a zero-confidence null result
when nothing matched. -/
def detectCustomer (customers : List (Customer × List DetectionPattern)) (env : JsEnv)
    (text : String) (fileName : Option String) : CustomerDetectionResult :=
  match candidateResults customers env text fileName with
  | [] =>
    { customerId := none, customerName := none, confidence := 0
      matchedPatterns := [], detectionMethod := .exact_match }
  | r :: rest => best1 (fun x => x.confidence) r rest

end CustomerDetector

/-! ## Template engine (src/src/lib/template-engine.ts) -/

/-- Extraction strategies of an ExtractionRule. -/
inductive ExtractionType where
  | regex | position | table | keyword | calculation
deriving DecidableEq

/-- Search direction of a keyword rule. -/
inductive KeywordDirection where
  | before | after | same_line
deriving DecidableEq

/-- keywordConfig of a keyword rule. -/
structure KeywordConfig where
  keywords : List String
  searchRadius : Nat
  direction : KeywordDirection
deriving DecidableEq

/-- position of a position rule (line-number approximation of coordinates). -/
structure PositionConfig where
  page : Option Int
  x : Option Int
  y : Option Int
  width : Option Int
  height : Option Int
deriving DecidableEq

/-- tableConfig of a table rule. -/
structure TableConfig where
  tableIndex : Nat
  columnIndex : Option Nat
  rowIndex : Option Nat
  headerName : Option String
deriving DecidableEq

/-- Operations of a calculation rule. -/
inductive CalcOperation where
  | sum | multiply | subtract | divide
deriving DecidableEq

/-- calculationConfig of a calculation rule. -/
structure CalculationConfig where
  operation : CalcOperation
  sourceFields : List String
  formula : Option String
deriving DecidableEq

/-- Data types of a validation spec. -/
inductive DataType where
  | string | number | date | currency | percentage
deriving DecidableEq

/-- validation spec of a rule. -/
structure FieldValidation where
  dataType : DataType
  required : Bool
  minLength : Option Nat
  maxLength : Option Nat
  pattern : Option String
deriving DecidableEq

/-- One field-extraction rule of a template. -/
structure ExtractionRule where
  fieldName : String
  extractionType : ExtractionType
  pattern : Option String
  position : Option PositionConfig
  tableConfig : Option TableConfig
  keywordConfig : Option KeywordConfig
  calculationConfig : Option CalculationConfig
  validation : Option FieldValidation
deriving DecidableEq

/-- A hardcoded value mapping.  The engine stores only active mappings, so
the isActive column is not modelled; the load order produced by the engine
(priority descending) is stated as a hypothesis where relevant. -/
structure HardcodedMapping where
  fieldName : String
  sourcePattern : String
  targetValue : String
  priority : Int
deriving DecidableEq

/-- A template as cached by the engine (active templates only). -/
structure Template where
  id : String
  customerId : String
  name : String
  extractionRules : List ExtractionRule
  hardcodedMappings : List HardcodedMapping
deriving DecidableEq

/-- A detected table as consumed by table rules (position metadata of the
source TableData record is unused by the engine and omitted). -/
structure TableData where
  rows : List (List String)
  headers : Option (List String)
deriving DecidableEq

/-- The structured-data record the orchestrator passes to processDocument:
the detected tables, plus the record entries visible to calculation rules. -/
structure StructuredData where
  tables : List TableData
  fields : List (String × JsVal)

/-- Per-run output of the template engine.  The wall-clock processingTime
field is not modelled. -/
structure ProcessingResult where
  success : Bool
  extractedData : List (String × JsVal)
  confidence : ℚ
  errors : List String
  warnings : List String

namespace TemplateEngine

/-- Record update mirroring JavaScript object assignment: overwrite an
existing key in place, else append. -/
def updateAssoc (l : List (String × JsVal)) (k : String) (v : JsVal) :
    List (String × JsVal) :=
  if l.any (fun p => p.1 == k) then
    l.map (fun p => if p.1 == k then (k, v) else p)
  else l ++ [(k, v)]

/-- Record lookup. -/
def lookupAssoc (l : List (String × JsVal)) (k : String) : Option JsVal :=
  (l.find? (fun p => p.1 == k)).map (fun p => p.2)

/-- extractWithRegex: first match of the pattern (flags gi) or null; an
invalid pattern throws. -/
def extractWithRegex (env : JsEnv) (rule : ExtractionRule) (text : String) :
    Except String (Option JsVal) :=
  match rule.pattern with
  | none => .ok none
  | some p =>
    if p == "" then .ok none
    else
      match env.regexMatchGI p text with
      | .error _ => .error ("Invalid regex pattern: " ++ p)
      | .ok m => .ok (m.map JsVal.str)

/-- The same_line handling: remainder of the line after the keyword, with
the leading colon/whitespace run removed; null when nothing remains. -/
def sameLineExtract (line : String) (keywordIndex kwLen : Nat) : Option String :=
  let afterKeyword := jsTrim (String.mk (line.data.drop (keywordIndex + kwLen)))
  let r := afterKeyword.data.dropWhile (fun c => c == ':' || jsIsSpace c)
  if r.isEmpty then none else some (jsTrim (String.mk r))

/-- Direction handling once a keyword occurrence is found at line i, column
idx.  The outer some means the source returns from the whole function; none
means the scan continues with the following lines. -/
def keywordDirectionOutcome (lines : List String) (cfg : KeywordConfig) (kw : String)
    (i idx : Nat) : Option (Option String) :=
  match cfg.direction with
  | .same_line => some (sameLineExtract (lines.getD i "") idx kw.length)
  | .after =>
    let ub := min (i + cfg.searchRadius) (lines.length - 1)
    let js := List.range' (i + 1) (ub + 1 - (i + 1))
    match js.findSome? (fun j =>
      let nextLine := jsTrim (lines.getD j "")
      if nextLine == "" then none else some nextLine) with
    | some v => some (some v)
    | none => none
  | .before =>
    let lb := i - cfg.searchRadius
    let js := (List.range' lb (i - lb)).reverse
    match js.findSome? (fun j =>
      let prevLine := jsTrim (lines.getD j "")
      if prevLine == "" then none else some prevLine) with
    | some v => some (some v)
    | none => none

/-- One line step of the per-keyword scan. -/
def extractKeywordAt (lines : List String) (cfg : KeywordConfig) (kw : String)
    (i : Nat) : Option (Option String) :=
  match jsIndexOf (jsLower (lines.getD i "")) (jsLower kw) with
  | none => none
  | some idx => keywordDirectionOutcome lines cfg kw i idx

/-- Scan every line, in order, for one keyword. -/
def scanLinesForKw (lines : List String) (cfg : KeywordConfig) (kw : String) :
    Option (Option String) :=
  (List.range lines.length).findSome? (extractKeywordAt lines cfg kw)

/-- extractWithKeyword: iterate the configured keywords in order; for each,
scan line-by-line for its first case-insensitive occurrence, return at the
first keyword that concludes (same_line concludes at its first occurrence,
possibly with null). -/
def extractWithKeyword (rule : ExtractionRule) (text : String) : Option String :=
  match rule.keywordConfig with
  | none => none
  | some cfg =>
    let lines := jsSplitNl text
    match cfg.keywords.findSome? (fun kw => scanLinesForKw lines cfg kw) with
    | some r => r
    | none => none

/-- The earliest keyword occurrence within one line: smallest column index,
ties resolved toward the earlier keyword in the list. -/
def lineFirstKeywordIdx (line : String) (keywords : List String) :
    Option (String × Nat) :=
  keywords.foldl (fun acc kw =>
    match jsIndexOf (jsLower line) (jsLower kw) with
    | none => acc
    | some idx =>
      match acc with
      | none => some (kw, idx)
      | some pr => if idx < pr.2 then some (kw, idx) else acc) none

/-- Modelled from the spec: keyword extraction that scans line-by-line for
the first occurrence (case-insensitive) of any configured keyword, then
applies the configured direction there.  This is the reading of the spec
sentence, to be compared with extractWithKeyword, whose outer loop is over
keywords instead. -/
def extractWithKeywordSpec (rule : ExtractionRule) (text : String) : Option String :=
  match rule.keywordConfig with
  | none => none
  | some cfg =>
    let lines := jsSplitNl text
    match (List.range lines.length).findSome? (fun i =>
      match lineFirstKeywordIdx (lines.getD i "") cfg.keywords with
      | none => none
      | some pr => keywordDirectionOutcome lines cfg pr.1 i pr.2) with
    | some r => r
    | none => none

/-- extractFromTable: locate a table by index and resolve a cell by header
name (first data row) or by explicit column/row indices. -/
def extractFromTable (rule : ExtractionRule) (tables : List TableData) :
    Option String :=
  match rule.tableConfig with
  | none => none
  | some cfg =>
    if tables.isEmpty then none
    else if tables.length ≤ cfg.tableIndex then none
    else
      let table := tables.getD cfg.tableIndex ⟨[], none⟩
      match cfg.headerName with
      | some hn =>
        let headerRow := table.headers.getD (table.rows.getD 0 [])
        match headerRow.findIdx? (fun h => jsIncludes (jsLower h) (jsLower hn)) with
        | some colIndex =>
          if 1 < table.rows.length then
            let cell := (table.rows.getD 1 []).getD colIndex ""
            if cell == "" then none else some cell
          else none
        | none => none
      | none =>
        match cfg.columnIndex with
        | some columnIndex =>
          let targetRow := cfg.rowIndex.getD 1
          if targetRow < table.rows.length ∧
              columnIndex < (table.rows.getD targetRow []).length then
            let cell := (table.rows.getD targetRow []).getD columnIndex ""
            if cell == "" then none else some cell
          else none
        | none => none

/-- extractFromPosition: line-number approximation, slicing lines around y. -/
def extractFromPosition (rule : ExtractionRule) (text : String) : Option String :=
  match rule.position with
  | none => none
  | some pos =>
    let pageTruthy := match pos.page with
      | none => false
      | some p => p != 0
    if pageTruthy then
      let lines := jsSplitNl text
      let startLine := max 0 ((pos.y.getD 0) - 2)
      let heightEff : Int := match pos.height with
        | some h => if h == 0 then 1 else h
        | none => 1
      let endLine := min (lines.length : Int) (startLine + heightEff)
      let startN := startLine.toNat
      let lenN := (endLine - startLine).toNat
      some (jsTrim (joinSep " " ((lines.drop startN).take lenN)))
    else none

/-- Value read by calculation rules from the structured-data record, with
the falsy-to-zero coercion of extractedData[field] followed by parseFloat. -/
def calcFieldValue (fields : List (String × JsVal)) (field : String) : JsFloat :=
  let raw := (fields.find? (fun p => p.1 == field)).map (fun p => p.2)
  match raw with
  | none => jsParseFloat (jsString (JsVal.num (.finite 0)))
  | some v => if jsFalsy v then jsParseFloat "0" else jsParseFloat (jsString v)

/-- Formula template substitution: each record key k replaces every
occurrence of the placeholder consisting of k between braces with
String(value or 0). -/
def substFormula (fields : List (String × JsVal)) (formula : String) : String :=
  fields.foldl (fun expr p =>
    let rendered := if jsFalsy p.2 then "0" else jsString p.2
    replaceAll expr ("\x7b" ++ p.1 ++ "\x7d") rendered) formula

/-- calculateValue: formula evaluation via the eval oracle, else a left
fold of the configured operation over the parsed source-field values. -/
def calculateValue (env : JsEnv) (rule : ExtractionRule)
    (fields : List (String × JsVal)) : Except String (Option JsVal) :=
  match rule.calculationConfig with
  | none => .ok none
  | some cfg =>
    match cfg.formula with
    | some f =>
      if f == "" then calcOps cfg fields
      else
        match env.evalNumeric (substFormula fields f) with
        | .ok x => .ok (some (JsVal.num x))
        | .error _ => .error "Formula evaluation failed: Unknown error"
    | none => calcOps cfg fields
where
  calcOps (cfg : CalculationConfig) (fields : List (String × JsVal)) :
      Except String (Option JsVal) :=
    let values := (cfg.sourceFields.map (calcFieldValue fields)).filter
      (fun v => !v.isNaN)
    match values with
    | [] => .ok none
    | v :: rest =>
      match cfg.operation with
      | .sum => .ok (some (JsVal.num ((v :: rest).foldl JsFloat.add (.finite 0))))
      | .multiply => .ok (some (JsVal.num ((v :: rest).foldl JsFloat.mul (.finite 1))))
      | .subtract => .ok (some (JsVal.num (rest.foldl JsFloat.sub v)))
      | .divide => .ok (some (JsVal.num (rest.foldl JsFloat.div v)))

/-- extractField: dispatch on the rule's extraction type. -/
def extractField (env : JsEnv) (rule : ExtractionRule) (text : String)
    (structured : StructuredData) : Except String (Option JsVal) :=
  match rule.extractionType with
  | .regex => extractWithRegex env rule text
  | .keyword => .ok ((extractWithKeyword rule text).map JsVal.str)
  | .table => .ok ((extractFromTable rule structured.tables).map JsVal.str)
  | .position => .ok ((extractFromPosition rule text).map JsVal.str)
  | .calculation => calculateValue env rule structured.fields

/-- The star/question glob matching produced by the source's glob-to-regex
translation, anchored at both ends.  A star matches any sequence; a
question mark, or a dot already in the pattern (which the translation
leaves as the regex any-character), matches exactly one character; every
other character is literal (further regex metacharacters, which do not
arise in mapping patterns, are not modelled). -/
def globMatch : Nat → List Char → List Char → Bool
  | _, [], [] => true
  | _, [], _ :: _ => false
  | 0, _ :: _, _ => false
  | fuel + 1, '*' :: ps, ts =>
    globMatch fuel ps ts ||
      (match ts with
       | [] => false
       | _ :: ts2 => globMatch fuel ('*' :: ps) ts2)
  | _, _ :: _, [] => false
  | fuel + 1, p :: ps, t :: ts => (p == '?' || p == '.' || p == t) && globMatch fuel ps ts

/-- matchWildcard on already-lower-cased value and pattern; the fuel (the
summed lengths suffice, each step consumes a pattern or text character)
keeps the recursion structural. -/
def matchWildcard (text pattern : String) : Bool :=
  globMatch (pattern.data.length + text.data.length + 1) pattern.data text.data

/-- The per-mapping match test of applyHardcodedMappings: the lower-cased
value contains the lower-cased pattern, or the pattern contains a star and
the glob translation matches. -/
def mappingMatches (m : HardcodedMapping) (valueStr : String) : Bool :=
  let sourcePattern := jsLower m.sourcePattern
  jsIncludes valueStr sourcePattern ||
    (jsContainsChar sourcePattern '*' && matchWildcard valueStr sourcePattern)

/-- First-match loop of applyHardcodedMappings over the field's mappings. -/
def applyGo (valueStr : String) (value : JsVal) : List HardcodedMapping → JsVal
  | [] => value
  | m :: rest =>
    if mappingMatches m valueStr then JsVal.str m.targetValue
    else applyGo valueStr value rest

/-- applyHardcodedMappings: the first mapping for the field (in stored
order) whose pattern matches rewrites the value to its targetValue. -/
def applyHardcodedMappings (mappings : List HardcodedMapping) (fieldName : String)
    (value : JsVal) : JsVal :=
  applyGo (jsLower (jsString value)) value
    (mappings.filter (fun m => m.fieldName == fieldName))

/-- Data-type check block of validateField. -/
def dataTypeErrors (env : JsEnv) (dataType : DataType) (value : JsVal) :
    List String :=
  match dataType with
  | .string => []
  | .number =>
    if (jsParseFloat (jsString value)).isNaN then ["Value must be a number"] else []
  | .date =>
    if !env.dateParseOk (jsString value) then ["Value must be a valid date"] else []
  | .currency =>
    if !currencyShape (jsRemoveAll (jsString value) ',') then
      ["Value must be a valid currency amount"]
    else []
  | .percentage =>
    match jsParseFloat (jsReplaceFirst (jsString value) "%" "") with
    | .nan => ["Value must be a valid percentage"]
    | .inf _ => ["Value must be a valid percentage"]
    | .finite q =>
      if q < 0 ∨ 100 < q then ["Value must be a valid percentage"] else []

/-- Length and pattern check block of validateField (a zero bound is falsy
and skips the check; an empty pattern string is falsy and skips it). -/
def lengthPatternErrors (env : JsEnv) (v : FieldValidation) (strValue : String) :
    List String :=
  (match v.minLength with
   | some m =>
     if m ≠ 0 ∧ strValue.length < m then
       ["Value must be at least " ++ toString m ++ " characters long"]
     else []
   | none => []) ++
  (match v.maxLength with
   | some m =>
     if m ≠ 0 ∧ m < strValue.length then
       ["Value must not exceed " ++ toString m ++ " characters"]
     else []
   | none => []) ++
  (match v.pattern with
   | some p =>
     if p == "" then []
     else
       match env.regexTestPlain p strValue with
       | .error _ => ["Invalid validation pattern"]
       | .ok true => []
       | .ok false => ["Value does not match required pattern"]
   | none => [])

/-- Whether the value is null/undefined or the empty string. -/
def isNullish : Option JsVal → Bool
  | none => true
  | some (.str s) => s == ""
  | some (.num _) => false

/-- validateField: a required field with no value is the only hard failure
path that short-circuits; otherwise the data-type, length and pattern
checks accumulate error strings, and validity is their absence. -/
def validateField (env : JsEnv) (rule : ExtractionRule) (value : Option JsVal) :
    Bool × List String :=
  match rule.validation with
  | none => (true, [])
  | some v =>
    if v.required && isNullish value then
      (false, ["Field is required but no value was extracted"])
    else if isNullish value then (true, [])
    else
      match value with
      | none => (true, [])
      | some x =>
        let errors := dataTypeErrors env v.dataType x ++
          lengthPatternErrors env v (jsString x)
        (errors.isEmpty, errors)

/-- Loop state of the processDocument rule loop. -/
structure LoopState where
  data : List (String × JsVal)
  errors : List String
  warnings : List String
  totalFields : Nat
  successfulExtractions : Nat

/-- One iteration of the processDocument rule loop. -/
def processRule (env : JsEnv) (mappings : List HardcodedMapping) (text : String)
    (structured : StructuredData) (st : LoopState) (rule : ExtractionRule) :
    LoopState :=
  let st := { st with totalFields := st.totalFields + 1 }
  match extractField env rule text structured with
  | .error msg =>
    { st with errors := st.errors ++
        ["Error extracting field \x27" ++ rule.fieldName ++ "\x27: " ++ msg] }
  | .ok none =>
    if (rule.validation.map (fun v => v.required)).getD false then
      { st with errors := st.errors ++
          ["Required field \x27" ++ rule.fieldName ++ "\x27 could not be extracted"] }
    else
      { st with warnings := st.warnings ++
          ["Optional field \x27" ++ rule.fieldName ++ "\x27 could not be extracted"] }
  | .ok (some v) =>
    let mappedValue := applyHardcodedMappings mappings rule.fieldName v
    let vr := validateField env rule (some mappedValue)
    if vr.1 then
      { st with data := updateAssoc st.data rule.fieldName mappedValue
                successfulExtractions := st.successfulExtractions + 1 }
    else
      { st with warnings := st.warnings ++
          ["Validation failed for " ++ rule.fieldName ++ ": " ++
            joinSep ", " vr.2]
                data := updateAssoc st.data rule.fieldName mappedValue }

/-- processDocument of the template engine: run every rule, then derive the
aggregate confidence and the success flag. -/
def processDocument (env : JsEnv) (template : Template) (text : String)
    (structured : StructuredData) : ProcessingResult :=
  let st := template.extractionRules.foldl
    (processRule env template.hardcodedMappings text structured)
    { data := [], errors := [], warnings := [], totalFields := 0
      successfulExtractions := 0 }
  let confidence : ℚ :=
    if st.totalFields > 0 then (st.successfulExtractions : ℚ) / (st.totalFields : ℚ)
    else 0
  { success := st.errors.isEmpty && decide (confidence > 1/2)
    extractedData := st.data
    confidence := confidence
    errors := st.errors
    warnings := st.warnings }

/-- Per-rule score contribution in scoreTemplate. -/
def rulePoints (env : JsEnv) (text : String) (rule : ExtractionRule) : ℚ :=
  match rule.extractionType with
  | .keyword =>
    match rule.keywordConfig with
    | some cfg =>
      if cfg.keywords.any (fun k => jsIncludes (jsLower text) (jsLower k)) then 1 else 0
    | none => 0
  | .regex =>
    match rule.pattern with
    | some p =>
      if p == "" then 0
      else
        match env.regexMatchGI p text with
        | .ok (some _) => 1
        | _ => 0
    | none => 0
  | .position => 1/2
  | _ => 0

/-- Template-name bonus points in scoreTemplate. -/
def nameBonus (template : Template) (text : String) : ℚ :=
  (if jsIncludes (jsLower template.name) "invoice" && jsIncludes (jsLower text) "invoice"
   then 2 else 0) +
  (if jsIncludes (jsLower template.name) "receipt" && jsIncludes (jsLower text) "receipt"
   then 2 else 0) +
  (if jsIncludes (jsLower template.name) "statement" && jsIncludes (jsLower text) "statement"
   then 2 else 0)

/-- scoreTemplate: accumulate points and the check counter over the rules,
add the name bonuses and three counter slots for them, and divide. -/
def scoreTemplate (env : JsEnv) (template : Template) (text : String) : ℚ :=
  let sc := template.extractionRules.foldl
    (fun (p : ℚ × Nat) r => (p.1 + rulePoints env text r, p.2 + 1)) ((0 : ℚ), 0)
  let score := sc.1 + nameBonus template text
  let totalChecks := sc.2 + 3
  if totalChecks > 0 then score / (totalChecks : ℚ) else 0

/-- selectTemplate: the single active template of the customer when exactly
one exists; otherwise the best-scoring template (stable descending sort,
element zero) when it scores above 0.3, else the first template. -/
def selectTemplate (env : JsEnv) (templates : List Template) (customerId : String)
    (text : String) : Option Template :=
  match templates.filter (fun t => t.customerId == customerId) with
  | [] => none
  | [t] => some t
  | t :: rest =>
    let scored := (t :: rest).map (fun tp => (tp, scoreTemplate env tp text))
    match scored with
    | [] => some t
    | p :: ps =>
      let b := best1 (fun x => x.2) p ps
      if b.2 > 3/10 then some b.1 else some t

end TemplateEngine

/-! ## PDF processor (pdf-processor module) -/

namespace PDFProcessor

/-- The extraction outcome the pipeline consumes: the merged text, the page
count and the extraction confidence.  Per-page data and document metadata
are produced by the external parsing libraries and are not needed by the
translated logic. -/
structure ExtractedData where
  text : String
  totalPages : Nat
  confidence : ℚ
deriving DecidableEq

/-- isTextMeaningful: among whitespace-separated tokens longer than two
characters, the purely alphabetic ones must make up more than half. -/
def isTextMeaningful (text : String) : Bool :=
  let words := (jsSplitWs text).filter (fun w => decide (2 < w.length))
  let meaningfulWords := words.filter isAlphaToken
  decide (((meaningfulWords.length : ℚ) / (words.length : ℚ)) > 1/2)

/-- processPDF acceptance logic, as a function of the direct-extraction
result (from pdf-parse) and the OCR engine output (text and the
engine-reported percentage confidence): keep the direct result at a fixed
0.95 confidence when it is long and meaningful enough, else fall back to
the OCR result with the engine confidence divided by 100. -/
def processPDF (direct : ExtractedData) (ocrText : String) (ocrConfidence : ℚ) :
    ExtractedData :=
  if decide (100 < direct.text.length) && isTextMeaningful direct.text then
    { direct with confidence := 95/100 }
  else
    { text := ocrText, totalPages := 1, confidence := ocrConfidence / 100 }

end PDFProcessor

/-! ## Processing orchestrator (processing-orchestrator module) -/

/-- Document lifecycle states. -/
inductive DocumentStatus where
  | UPLOADED | PROCESSING | COMPLETED | FAILED
deriving DecidableEq

/-- Processing-job states. -/
inductive JobStatus where
  | QUEUED | RUNNING | COMPLETED | FAILED
deriving DecidableEq

namespace ProcessingOrchestrator

/-- The response record of the orchestrator (the wall-clock processingTime
field is not modelled). -/
structure ProcessingResponse where
  success : Bool
  documentId : String
  processingJobId : String
  customerId : Option String
  templateId : Option String
  csvFilePath : Option String
  extractedData : Option (List (String × JsVal))
  confidence : ℚ
  errors : List String
  warnings : List String

/-- One pipeline run's externally visible outcome: the response, the
document-status writes issued (in order) and the final job status. -/
structure PipelineOutcome where
  response : ProcessingResponse
  docStatusWrites : List DocumentStatus
  jobStatus : JobStatus

/-- Outputs of the pure side transforms of the PDF processor
(detectKeyValuePairs, extractDates, extractNumbers, extractTables) over the
extracted text, supplied as inputs: their values never influence the
branch structure under study.  Dates are already rendered as ISO strings
and currency amounts as joined display strings, as the source does before
insertion. -/
structure SideData where
  keyValuePairs : List (String × String)
  dates : List String
  currencyAmounts : List String
  tables : List TableData
  structuredFields : List (String × JsVal)

/-- Inputs of one orchestrator run: the request identifiers, the PDF
processing outcome (an error models a thrown extraction failure), the
sanitized timestamp used in the CSV filename, and the uploads directory. -/
structure OrchestratorInput where
  documentId : String
  fileName : String
  jobId : String
  pdfResult : Except String PDFProcessor.ExtractedData
  timestamp : String
  csvDir : String

/-- CSV output path: uploads/csv plus the pdf-stripped filename and the
sanitized timestamp. -/
def generateCSVPath (csvDir fileName timestamp : String) : String :=
  csvDir ++ "/csv/" ++ jsReplaceFirst fileName ".pdf" "" ++ "_" ++ timestamp ++ ".csv"

/-- The record assembled by createBasicCSV: fixed base fields, the detected
key-value pairs spread over them, then the optional date and currency
summary rows. -/
def basicCsvData (side : SideData) (fileName timestamp : String) (totalPages : Nat)
    (customerId : Option String) : List (String × JsVal) :=
  let base : List (String × JsVal) :=
    [("document_name", JsVal.str fileName),
     ("extraction_date", JsVal.str timestamp),
     ("total_pages", JsVal.num (.finite (totalPages : ℚ))),
     ("customer_id", JsVal.str (customerId.getD "unknown"))]
  let d1 := side.keyValuePairs.foldl
    (fun acc kv => TemplateEngine.updateAssoc acc kv.1 (JsVal.str kv.2)) base
  let d2 := if side.dates.isEmpty then d1
    else TemplateEngine.updateAssoc d1 "detected_dates"
      (JsVal.str (joinSep "; " side.dates))
  if side.currencyAmounts.isEmpty then d2
  else TemplateEngine.updateAssoc d2 "currency_amounts"
    (JsVal.str (joinSep "; " side.currencyAmounts))

/-- The orchestrator's processDocument: create the job, run extraction,
detection, template selection and template processing, with the degraded
basic-CSV branches; any thrown stage error fails the job and the document. -/
def processDocument (env : JsEnv)
    (customers : List (Customer × List DetectionPattern))
    (templates : List Template) (inp : OrchestratorInput) (side : SideData) :
    PipelineOutcome :=
  let resp0 : ProcessingResponse :=
    { success := false, documentId := inp.documentId
      processingJobId := inp.jobId, customerId := none, templateId := none
      csvFilePath := none, extractedData := none, confidence := 0
      errors := [], warnings := [] }
  match inp.pdfResult with
  | .error msg =>
    { response := { resp0 with errors := [msg] }
      docStatusWrites := [DocumentStatus.FAILED], jobStatus := JobStatus.FAILED }
  | .ok extractedData =>
    if extractedData.text.length < 10 then
      { response := { resp0 with errors := ["Insufficient text extracted from PDF"] }
        docStatusWrites := [DocumentStatus.FAILED], jobStatus := JobStatus.FAILED }
    else
      let customerDetection := CustomerDetector.detectCustomer customers env
        extractedData.text (some inp.fileName)
      match customerDetection.customerId with
      | none =>
        let path := generateCSVPath inp.csvDir inp.fileName inp.timestamp
        let data := basicCsvData side inp.fileName inp.timestamp
          extractedData.totalPages none
        { response := { resp0 with
            warnings := ["Could not automatically detect customer"]
            csvFilePath := some path, extractedData := some data
            confidence := 3/10, success := true }
          docStatusWrites := [DocumentStatus.COMPLETED]
          jobStatus := JobStatus.COMPLETED }
      | some cid =>
        match TemplateEngine.selectTemplate env templates cid extractedData.text with
        | none =>
          let path := generateCSVPath inp.csvDir inp.fileName inp.timestamp
          let data := basicCsvData side inp.fileName inp.timestamp
            extractedData.totalPages (some cid)
          { response := { resp0 with
              warnings := ["No template found for detected customer"]
              csvFilePath := some path, extractedData := some data
              confidence := customerDetection.confidence * (1/2), success := true }
            docStatusWrites := []
            jobStatus := JobStatus.COMPLETED }
        | some template =>
          let processingResult := TemplateEngine.processDocument env template
            extractedData.text
            { tables := side.tables, fields := side.structuredFields }
          let path := generateCSVPath inp.csvDir inp.fileName inp.timestamp
          { response := { resp0 with
              success := processingResult.success
              customerId := some cid
              templateId := some template.id
              csvFilePath := some path
              extractedData := some processingResult.extractedData
              confidence := (customerDetection.confidence +
                processingResult.confidence) / 2
              errors := processingResult.errors
              warnings := processingResult.warnings }
            docStatusWrites :=
              [if processingResult.success then DocumentStatus.COMPLETED
               else DocumentStatus.FAILED]
            jobStatus :=
              if processingResult.success then JobStatus.COMPLETED
              else JobStatus.FAILED }

end ProcessingOrchestrator

/-! ## Concrete sample inputs used by the scenario theorems -/

/-- A single-keyword same-line rule. -/
def keywordRule (f kw : String) : ExtractionRule :=
  { fieldName := f, extractionType := .keyword, pattern := none, position := none
    tableConfig := none
    keywordConfig := some { keywords := [kw], searchRadius := 1, direction := .same_line }
    calculationConfig := none, validation := none }

/-- The invoice scenario text of the spec. -/
def sampleInvoiceText : String :=
  "Invoice #INV-1001\nDate: 2024-01-05\nTotal: $250.00"

/-- A two-keyword same-line rule whose keywords occur on lines in the
opposite order to the keyword list. -/
def multiKeywordRule : ExtractionRule :=
  { fieldName := "x", extractionType := .keyword, pattern := none, position := none
    tableConfig := none
    keywordConfig := some
      { keywords := ["amount", "date"], searchRadius := 1, direction := .same_line }
    calculationConfig := none, validation := none }

/-- Text for the keyword-order counterexample. -/
def multiKeywordText : String :=
  "Date: 2024\nAmount: 5"

/-- The wildcard mapping of the spec scenario. -/
def mappingFrei : HardcodedMapping :=
  { fieldName := "cost_type", sourcePattern := "frei*"
    targetValue := "SHIPPING_COST", priority := 5 }

/-- A mapping whose pattern contains a question mark but no star. -/
def mappingQmark : HardcodedMapping :=
  { fieldName := "cost_type", sourcePattern := "freight?charge"
    targetValue := "SHIPPING_COST", priority := 5 }

/-- A required keyword rule whose keyword is absent from the sample text. -/
def ruleRequiredMissing : ExtractionRule :=
  { fieldName := "po_number", extractionType := .keyword, pattern := none
    position := none, tableConfig := none
    keywordConfig := some
      { keywords := ["PO Number:"], searchRadius := 1, direction := .same_line }
    calculationConfig := none
    validation := some
      { dataType := .string, required := true, minLength := none
        maxLength := none, pattern := none } }

/-- A keyword rule whose extracted value fails a minimum-length check. -/
def ruleDateMinLen : ExtractionRule :=
  { fieldName := "invoice_date", extractionType := .keyword, pattern := none
    position := none, tableConfig := none
    keywordConfig := some
      { keywords := ["Date:"], searchRadius := 1, direction := .same_line }
    calculationConfig := none
    validation := some
      { dataType := .string, required := false, minLength := some 50
        maxLength := none, pattern := none } }

/-- Template combining the two validation sample rules. -/
def templateValidationW : Template :=
  { id := "t1", customerId := "c1", name := "basic"
    extractionRules := [ruleRequiredMissing, ruleDateMinLen]
    hardcodedMappings := [] }

/-- Empty structured data. -/
def structuredEmpty : StructuredData :=
  { tables := [], fields := [] }

/-- An invoice-named template with one matching keyword rule. -/
def templateInvoiceA : Template :=
  { id := "tplA", customerId := "c1", name := "invoice layout"
    extractionRules := [keywordRule "total_amount" "Total:"]
    hardcodedMappings := [] }

/-- A second template with one non-matching keyword rule. -/
def templateOtherB : Template :=
  { id := "tplB", customerId := "c1", name := "packing slip"
    extractionRules := [keywordRule "carrier" "Carrier:"]
    hardcodedMappings := [] }

/-- Two mappings on one field that both match the sample value, the
higher-priority one first (the load order of the engine). -/
def mappingAlphaHigh : HardcodedMapping :=
  { fieldName := "f", sourcePattern := "alpha", targetValue := "A", priority := 7 }

/-- The lower-priority matching mapping. -/
def mappingAlphaLow : HardcodedMapping :=
  { fieldName := "f", sourcePattern := "alph", targetValue := "B", priority := 3 }

/-- Orchestrator input with a successfully extracted short document. -/
def orchInputW : ProcessingOrchestrator.OrchestratorInput :=
  { documentId := "doc-1", fileName := "doc.pdf", jobId := "job-1"
    pdfResult := .ok { text := "0123456789abc", totalPages := 1, confidence := 9/10 }
    timestamp := "2024-01-05T00-00-00-000Z", csvDir := "./uploads" }

/-- Empty side data for the orchestrator runs. -/
def sideDataW : ProcessingOrchestrator.SideData :=
  { keyValuePairs := [], dates := [], currencyAmounts := [], tables := []
    structuredFields := [] }

/-- A one-customer detector configuration with a nonnegative-weight text
pattern, for the confidence-bound witness. -/
def customersW : List (Customer × List DetectionPattern) :=
  [(⟨"cust-1", "Acme Corp"⟩,
    [{ type := PatternType.text, pattern := "acme", weight := 2, caseSensitive := false },
     { type := PatternType.text, pattern := "corporation", weight := 1, caseSensitive := false }])]

/-- A customer whose name only partially occurs in a document, driving the
fuzzy heuristic below its threshold but above zero. -/
def customerPartial : Customer :=
  { id := "cust-9", name := "Alpha Beta" }

/-! ## Theorems -/

unseal Rat.mul Rat.inv Rat.add Rat.sub in
/-- Claim C10: detectCustomer can return a result whose customerId is null
while its confidence is strictly positive: a below-threshold fuzzy
candidate is still pooled (with a null customerId) and, being the only
candidate, is returned as-is. -/
theorem c10_null_customer_positive_confidence :
    (CustomerDetector.detectCustomer [(customerPartial, [])] envTrivial
      "alpha invoice" none).customerId = none ∧
    0 < (CustomerDetector.detectCustomer [(customerPartial, [])] envTrivial
      "alpha invoice" none).confidence := by
  decide

/-- Claim C7 (counterexample): the claim says a pattern containing a star
or question-mark wildcard is matched via the glob translation; but for a
pattern containing a question mark and no star, the glob translation
matches the value while applyHardcodedMappings leaves the value
unchanged (the source gates the wildcard branch on a star only). -/
theorem c7_counterexample :
    ((jsContainsChar "freight?charge" '*' || jsContainsChar "freight?charge" '?') &&
      TemplateEngine.matchWildcard "freight charge" "freight?charge") = true ∧
    TemplateEngine.applyHardcodedMappings [mappingQmark] "cost_type"
      (JsVal.str "freight charge") = JsVal.str "freight charge" ∧
    JsVal.str "freight charge" ≠ JsVal.str "SHIPPING_COST" := by
  decide

/-- Claim C7 (amended): a single mapping rewrites the value to its
targetValue exactly when the lower-cased value contains the lower-cased
sourcePattern, or the pattern contains a star (a question mark alone does
not enable the wildcard branch) and the anchored glob translation matches;
and the frei* scenario rewrites "freight charge" to SHIPPING_COST. -/
theorem c7_wildcard_mapping (m : HardcodedMapping) (v : JsVal) :
    TemplateEngine.applyHardcodedMappings [m] m.fieldName v =
      (if jsIncludes (jsLower (jsString v)) (jsLower m.sourcePattern) ||
          (jsContainsChar (jsLower m.sourcePattern) '*' &&
            TemplateEngine.matchWildcard (jsLower (jsString v))
              (jsLower m.sourcePattern))
       then JsVal.str m.targetValue else v) ∧
    TemplateEngine.applyHardcodedMappings [mappingFrei] "cost_type"
      (JsVal.str "freight charge") = JsVal.str "SHIPPING_COST" := by
  refine ⟨?_, by decide⟩
  simp only [TemplateEngine.applyHardcodedMappings, List.filter, beq_self_eq_true,
    TemplateEngine.applyGo, TemplateEngine.mappingMatches]

/-- Claim C6 (counterexample): the claim describes a line-by-line scan for
the first occurrence of any configured keyword, but with keywords
["amount", "date"] over a text whose first line holds "Date:" and whose
second holds "Amount:", the source returns the value of the second line
(keywords are iterated in the outer loop), not the first. -/
theorem c6_counterexample :
    TemplateEngine.extractWithKeyword multiKeywordRule multiKeywordText = some "5" ∧
    TemplateEngine.extractWithKeywordSpec multiKeywordRule multiKeywordText
      = some "2024" ∧
    (some "5" : Option String) ≠ some "2024" := by
  decide

/-- Claim C6 (amended): keyword extraction iterates the configured keywords
in order, scanning line-by-line for each keyword's first case-insensitive
occurrence; for a single-keyword rule this coincides with the claimed
line-by-line scan for the first occurrence of any keyword (the spec-worded
function), and the invoice scenario extracts the three claimed values. -/
theorem c6_keyword_extraction :
    (∀ (f kw : String) (radius : Nat) (d : KeywordDirection) (text : String),
      TemplateEngine.extractWithKeyword
        { fieldName := f, extractionType := .keyword, pattern := none
          position := none, tableConfig := none
          keywordConfig := some
            { keywords := [kw], searchRadius := radius, direction := d }
          calculationConfig := none, validation := none } text =
      TemplateEngine.extractWithKeywordSpec
        { fieldName := f, extractionType := .keyword, pattern := none
          position := none, tableConfig := none
          keywordConfig := some
            { keywords := [kw], searchRadius := radius, direction := d }
          calculationConfig := none, validation := none } text) ∧
    TemplateEngine.extractWithKeyword (keywordRule "invoice_number" "Invoice #")
      sampleInvoiceText = some "INV-1001" ∧
    TemplateEngine.extractWithKeyword (keywordRule "invoice_date" "Date:")
      sampleInvoiceText = some "2024-01-05" ∧
    TemplateEngine.extractWithKeyword (keywordRule "total_amount" "Total:")
      sampleInvoiceText = some "$250.00" := by
  refine ⟨?_, by decide, by decide, by decide⟩
  intro f kw radius d text
  simp only [TemplateEngine.extractWithKeyword, TemplateEngine.extractWithKeywordSpec]
  have hf : (fun i =>
      match TemplateEngine.lineFirstKeywordIdx ((jsSplitNl text).getD i "") [kw] with
      | none => none
      | some pr => TemplateEngine.keywordDirectionOutcome (jsSplitNl text)
          { keywords := [kw], searchRadius := radius, direction := d } pr.1 i pr.2) =
      TemplateEngine.extractKeywordAt (jsSplitNl text)
        { keywords := [kw], searchRadius := radius, direction := d } kw := by
    funext i
    simp only [TemplateEngine.lineFirstKeywordIdx, List.foldl,
      TemplateEngine.extractKeywordAt]
    cases h : jsIndexOf (jsLower ((jsSplitNl text).getD i "")) (jsLower kw) <;> simp [h]
  rw [hf]
  simp only [TemplateEngine.scanLinesForKw]
  cases h : (List.range (jsSplitNl text).length).findSome?
      (TemplateEngine.extractKeywordAt (jsSplitNl text)
        { keywords := [kw], searchRadius := radius, direction := d } kw) <;>
    simp [List.findSome?, h]

/-- Claim C1: when extraction succeeds (at least ten characters of text)
and customer detection returns a null customerId, the orchestrator still
produces a CSV path, writes the document status COMPLETED, and responds
with success and confidence 0.3. -/
theorem c1_basic_csv_fallback (env : JsEnv)
    (customers : List (Customer × List DetectionPattern)) (templates : List Template)
    (inp : ProcessingOrchestrator.OrchestratorInput)
    (side : ProcessingOrchestrator.SideData) (ed : PDFProcessor.ExtractedData)
    (hpdf : inp.pdfResult = .ok ed)
    (hlen : 10 ≤ ed.text.length)
    (hdet : (CustomerDetector.detectCustomer customers env ed.text
      (some inp.fileName)).customerId = none) :
    (ProcessingOrchestrator.processDocument env customers templates inp side).response.csvFilePath =
      some (ProcessingOrchestrator.generateCSVPath inp.csvDir inp.fileName inp.timestamp) ∧
    (ProcessingOrchestrator.processDocument env customers templates inp side).docStatusWrites =
      [DocumentStatus.COMPLETED] ∧
    (ProcessingOrchestrator.processDocument env customers templates inp side).response.success = true ∧
    (ProcessingOrchestrator.processDocument env customers templates inp side).response.confidence = 3/10 := by
  have h2 : ¬ (ed.text.length < 10) := by omega
  simp only [ProcessingOrchestrator.processDocument, hpdf, h2, if_false, hdet]
  simp

/-- Claim C1 witness at a concrete thirteen-character document with no
configured customers. -/
theorem c1_witness :
    10 ≤ String.length "0123456789abc" ∧
    (CustomerDetector.detectCustomer [] envTrivial "0123456789abc"
      (some "doc.pdf")).customerId = none ∧
    (ProcessingOrchestrator.processDocument envTrivial [] [] orchInputW sideDataW).response.csvFilePath =
      some (ProcessingOrchestrator.generateCSVPath "./uploads" "doc.pdf"
        "2024-01-05T00-00-00-000Z") ∧
    (ProcessingOrchestrator.processDocument envTrivial [] [] orchInputW sideDataW).docStatusWrites =
      [DocumentStatus.COMPLETED] ∧
    (ProcessingOrchestrator.processDocument envTrivial [] [] orchInputW sideDataW).response.success = true ∧
    (ProcessingOrchestrator.processDocument envTrivial [] [] orchInputW sideDataW).response.confidence = 3/10 := by
  have h := c1_basic_csv_fallback envTrivial [] [] orchInputW sideDataW
    { text := "0123456789abc", totalPages := 1, confidence := 9/10 }
    rfl (by decide) (by decide)
  exact ⟨by decide, by decide, h.1, h.2.1, h.2.2.1, h.2.2.2⟩

/-- Claim C9: processPDF keeps the direct-extraction result with a fixed
0.95 confidence exactly when the direct text is longer than one hundred
characters and more than half of its whitespace tokens longer than two
characters are purely alphabetic; otherwise it returns the OCR result with
the engine confidence divided by one hundred. -/
theorem c9_processPDF_acceptance (direct : PDFProcessor.ExtractedData)
    (ocrText : String) (ocrConfidence : ℚ) :
    PDFProcessor.processPDF direct ocrText ocrConfidence =
      (if 100 < direct.text.length ∧
          (1 : ℚ)/2 <
            ((((jsSplitWs direct.text).filter (fun w => decide (2 < w.length))).countP
                isAlphaToken : ℚ) /
              ((((jsSplitWs direct.text).filter (fun w => decide (2 < w.length))).length : ℚ)))
       then { direct with confidence := 95/100 }
       else { text := ocrText, totalPages := 1, confidence := ocrConfidence / 100 }) := by
  simp only [PDFProcessor.processPDF, PDFProcessor.isTextMeaningful,
    List.countP_eq_length_filter]
  by_cases h1 : 100 < direct.text.length <;>
    by_cases h2 : (1 : ℚ)/2 <
      (((((jsSplitWs direct.text).filter (fun w => decide (2 < w.length))).filter
          isAlphaToken).length : ℚ) /
        ((((jsSplitWs direct.text).filter (fun w => decide (2 < w.length))).length : ℚ))) <;>
    simp [h1, h2]

/-- splitRuns never returns an empty token list. -/
theorem splitRuns_ne_nil (p : Char → Bool) (l : List Char) : splitRuns p l ≠ [] := by
  induction l with
  | nil => simp [splitRuns]
  | cons c cs ih =>
    simp only [splitRuns]
    by_cases hc : p c
    · cases cs with
      | nil => simp [hc]
      | cons d t =>
        by_cases hd : p d
        · simpa [hc, hd] using ih
        · simp [hc, hd]
    · cases hr : splitRuns p cs with
      | nil => exact absurd hr ih
      | cons a as => simp [hc, hr]

/-- A JavaScript whitespace split always yields at least one token. -/
theorem jsSplitWs_ne_nil (s : String) : jsSplitWs s ≠ [] := by
  intro h
  exact splitRuns_ne_nil jsIsSpace s.data (by simpa [jsSplitWs] using h)

/-- Unfolded form of the fuzzy-match confidence. -/
theorem checkFuzzyMatch_confidence (text : String) (c : Customer) :
    (CustomerDetector.checkFuzzyMatch text c).confidence =
      ((((jsSplitWs (jsLower c.name)).filter
          (fun w => decide (2 < w.length) && jsIncludes (jsLower text) w)).length : ℚ) /
        ((jsSplitWs (jsLower c.name)).length : ℚ)) * (4/5) := by
  have hpos : 0 < (jsSplitWs (jsLower c.name)).length :=
    List.length_pos.mpr (jsSplitWs_ne_nil _)
  simp [CustomerDetector.checkFuzzyMatch, hpos]

/-- The fuzzy-match confidence never exceeds 0.8. -/
theorem checkFuzzyMatch_confidence_le (text : String) (c : Customer) :
    (CustomerDetector.checkFuzzyMatch text c).confidence ≤ 4/5 := by
  rw [checkFuzzyMatch_confidence]
  have hpos : 0 < (jsSplitWs (jsLower c.name)).length :=
    List.length_pos.mpr (jsSplitWs_ne_nil _)
  have hq : (0 : ℚ) < ((jsSplitWs (jsLower c.name)).length : ℚ) := by
    exact_mod_cast hpos
  have hr : ((((jsSplitWs (jsLower c.name)).filter
      (fun w => decide (2 < w.length) && jsIncludes (jsLower text) w)).length : ℚ) /
      ((jsSplitWs (jsLower c.name)).length : ℚ)) ≤ 1 := by
    rw [div_le_one hq]
    exact_mod_cast List.length_filter_le _ _
  calc ((((jsSplitWs (jsLower c.name)).filter
      (fun w => decide (2 < w.length) && jsIncludes (jsLower text) w)).length : ℚ) /
      ((jsSplitWs (jsLower c.name)).length : ℚ)) * (4/5)
      ≤ 1 * (4/5) := by
        apply mul_le_mul_of_nonneg_right hr
        norm_num
    _ = 4/5 := by norm_num

/-- The fuzzy-match confidence is nonnegative. -/
theorem checkFuzzyMatch_confidence_nonneg (text : String) (c : Customer) :
    0 ≤ (CustomerDetector.checkFuzzyMatch text c).confidence := by
  rw [checkFuzzyMatch_confidence]
  positivity

/-- Claim C8: fuzzy matching tokenizes the customer name on whitespace,
counts the tokens longer than two characters that occur in the lower-cased
text, scales the matched ratio by 0.8 (hence never exceeds 0.8), and
reports a non-null customerId exactly when the confidence exceeds 0.5. -/
theorem c8_fuzzy_match (text : String) (c : Customer) :
    (CustomerDetector.checkFuzzyMatch text c).confidence =
      (((jsSplitWs (jsLower c.name)).countP
          (fun w => decide (2 < w.length) && jsIncludes (jsLower text) w) : ℚ) /
        ((jsSplitWs (jsLower c.name)).length : ℚ)) * (4/5) ∧
    (CustomerDetector.checkFuzzyMatch text c).confidence ≤ 4/5 ∧
    ((CustomerDetector.checkFuzzyMatch text c).customerId = some c.id ↔
      1/2 < (CustomerDetector.checkFuzzyMatch text c).confidence) := by
  refine ⟨?_, checkFuzzyMatch_confidence_le text c, ?_⟩
  · rw [List.countP_eq_length_filter]
    exact checkFuzzyMatch_confidence text c
  · by_cases h : 1/2 < (CustomerDetector.checkFuzzyMatch text c).confidence
    · simp only [h, iff_true]
      have : (CustomerDetector.checkFuzzyMatch text c).customerId =
          if (CustomerDetector.checkFuzzyMatch text c).confidence > 1/2
          then some c.id else none := by
        simp [CustomerDetector.checkFuzzyMatch]
      rw [this, if_pos h]
    · simp only [h, iff_false]
      have : (CustomerDetector.checkFuzzyMatch text c).customerId =
          if (CustomerDetector.checkFuzzyMatch text c).confidence > 1/2
          then some c.id else none := by
        simp [CustomerDetector.checkFuzzyMatch]
      rw [this, if_neg h]
      simp

/-- Bounds of the weighted-pattern loop under nonnegative weights. -/
theorem weightScan_bounds (hitOf : DetectionPattern → Bool)
    (l : List DetectionPattern) (hw : ∀ p ∈ l, 0 ≤ p.weight) :
    0 ≤ (CustomerDetector.weightScan hitOf l).1 ∧
    0 ≤ (CustomerDetector.weightScan hitOf l).2.1 ∧
    (CustomerDetector.weightScan hitOf l).2.1 ≤ (CustomerDetector.weightScan hitOf l).1 := by
  induction l with
  | nil => simp [CustomerDetector.weightScan]
  | cons p rest ih =>
    have hp : 0 ≤ p.weight := hw p (List.mem_cons_self p rest)
    obtain ⟨h1, h2, h3⟩ := ih (fun q hq => hw q (List.mem_cons_of_mem _ hq))
    cases hcase : hitOf p <;>
      simp only [CustomerDetector.weightScan, hcase, if_true, if_false,
        Bool.false_eq_true, ite_true, ite_false] <;>
      refine ⟨by linarith, by linarith, by linarith⟩

/-- A guarded weighted ratio lies in the unit interval. -/
theorem ratio_bounds (t m : ℚ) (h0 : 0 ≤ m) (h1 : m ≤ t) :
    0 ≤ (if t > 0 then m / t else 0) ∧ (if t > 0 then m / t else 0) ≤ 1 := by
  by_cases h : t > 0
  · rw [if_pos h]
    exact ⟨div_nonneg h0 h.le, (div_le_one h).mpr h1⟩
  · rw [if_neg h]
    norm_num

/-- checkExactMatch yields a confidence in the unit interval. -/
theorem checkExactMatch_bounds (text : String) (c : Customer)
    (patterns : List DetectionPattern) (hw : ∀ p ∈ patterns, 0 ≤ p.weight) :
    0 ≤ (CustomerDetector.checkExactMatch text c patterns).confidence ∧
    (CustomerDetector.checkExactMatch text c patterns).confidence ≤ 1 := by
  obtain ⟨h1, h2, h3⟩ := weightScan_bounds (CustomerDetector.exactHit text)
    (patterns.filter (fun p => p.type == PatternType.text))
    (fun p hp => hw p (List.mem_of_mem_filter hp))
  simpa [CustomerDetector.checkExactMatch, CustomerDetector.exactScan] using
    ratio_bounds _ _ h2 h3

/-- checkPatternMatch yields a confidence in the unit interval. -/
theorem checkPatternMatch_bounds (env : JsEnv) (text : String) (c : Customer)
    (patterns : List DetectionPattern) (hw : ∀ p ∈ patterns, 0 ≤ p.weight) :
    0 ≤ (CustomerDetector.checkPatternMatch env text c patterns).confidence ∧
    (CustomerDetector.checkPatternMatch env text c patterns).confidence ≤ 1 := by
  obtain ⟨r1, r2, r3⟩ := weightScan_bounds (CustomerDetector.regexHit env text)
    (patterns.filter (fun p => p.type == PatternType.regex))
    (fun p hp => hw p (List.mem_of_mem_filter hp))
  obtain ⟨s1, s2, s3⟩ := weightScan_bounds
    (CustomerDetector.hfHit
      (joinSep " " ((jsSplitNl text).take (min 5 (jsSplitNl text).length)))
      (joinSep " " ((jsSplitNl text).drop
        ((jsSplitNl text).length - min 5 (jsSplitNl text).length))))
    (patterns.filter
      (fun p => p.type == PatternType.header || p.type == PatternType.footer))
    (fun p hp => hw p (List.mem_of_mem_filter hp))
  have hb := ratio_bounds
    ((CustomerDetector.weightScan (CustomerDetector.regexHit env text)
        (patterns.filter (fun p => p.type == PatternType.regex))).1 +
      (CustomerDetector.weightScan
        (CustomerDetector.hfHit
          (joinSep " " ((jsSplitNl text).take (min 5 (jsSplitNl text).length)))
          (joinSep " " ((jsSplitNl text).drop
            ((jsSplitNl text).length - min 5 (jsSplitNl text).length))))
        (patterns.filter
          (fun p => p.type == PatternType.header || p.type == PatternType.footer))).1)
    ((CustomerDetector.weightScan (CustomerDetector.regexHit env text)
        (patterns.filter (fun p => p.type == PatternType.regex))).2.1 +
      (CustomerDetector.weightScan
        (CustomerDetector.hfHit
          (joinSep " " ((jsSplitNl text).take (min 5 (jsSplitNl text).length)))
          (joinSep " " ((jsSplitNl text).drop
            ((jsSplitNl text).length - min 5 (jsSplitNl text).length))))
        (patterns.filter
          (fun p => p.type == PatternType.header || p.type == PatternType.footer))).2.1)
    (by linarith) (by linarith)
  simpa [CustomerDetector.checkPatternMatch, CustomerDetector.regexScan,
    CustomerDetector.hfScan] using hb

/-- checkFilenameMatch yields a confidence in the unit interval. -/
theorem checkFilenameMatch_bounds (fileName : String) (c : Customer)
    (patterns : List DetectionPattern) :
    0 ≤ (CustomerDetector.checkFilenameMatch fileName c patterns).confidence ∧
    (CustomerDetector.checkFilenameMatch fileName c patterns).confidence ≤ 1 := by
  simp only [CustomerDetector.checkFilenameMatch]
  constructor
  · apply le_min
    · positivity
    · norm_num
  · calc min ((3/10 : ℚ) * _ + (2/5) * _) (9/10) ≤ 9/10 := min_le_right _ _
      _ ≤ 1 := by norm_num

/-- Membership of a conditional singleton. -/
theorem mem_if_singleton {α : Type} (r x : α) (c : Prop) [Decidable c]
    (h : r ∈ (if c then [x] else [])) : r = x := by
  by_cases hc : c
  · rw [if_pos hc] at h
    simpa using h
  · rw [if_neg hc] at h
    simp at h

/-- Every pooled detection candidate has a confidence in the unit
interval, given nonnegative configured weights. -/
theorem candidateResults_bounds (customers : List (Customer × List DetectionPattern))
    (env : JsEnv) (text : String) (fileName : Option String)
    (hw : ∀ cp ∈ customers, ∀ p ∈ cp.2, 0 ≤ p.weight) :
    ∀ r ∈ CustomerDetector.candidateResults customers env text fileName,
      0 ≤ r.confidence ∧ r.confidence ≤ 1 := by
  intro r hr
  rw [CustomerDetector.candidateResults, List.mem_flatMap] at hr
  obtain ⟨cp, hcp, hmem⟩ := hr
  have hwcp : ∀ p ∈ cp.2, 0 ≤ p.weight := hw cp hcp
  simp only [List.mem_append] at hmem
  rcases hmem with ((h1 | h2) | h3) | h4
  · have he : r = CustomerDetector.checkExactMatch text cp.1 cp.2 :=
      mem_if_singleton r _ _ h1
    exact he ▸ checkExactMatch_bounds text cp.1 cp.2 hwcp
  · have he : r = CustomerDetector.checkPatternMatch env text cp.1 cp.2 :=
      mem_if_singleton r _ _ h2
    exact he ▸ checkPatternMatch_bounds env text cp.1 cp.2 hwcp
  · have he : r = CustomerDetector.checkFuzzyMatch text cp.1 :=
      mem_if_singleton r _ _ h3
    refine he ▸ ⟨checkFuzzyMatch_confidence_nonneg text cp.1, ?_⟩
    calc (CustomerDetector.checkFuzzyMatch text cp.1).confidence ≤ 4/5 :=
        checkFuzzyMatch_confidence_le text cp.1
      _ ≤ 1 := by norm_num
  · cases fileName with
    | none => simp at h4
    | some fn =>
      have he : r = CustomerDetector.checkFilenameMatch fn cp.1 cp.2 :=
        mem_if_singleton r _ _ h4
      exact he ▸ checkFilenameMatch_bounds fn cp.1 cp.2

/-- The first-encountered maximum belongs to the collection. -/
theorem best1_mem {α : Type} (score : α → ℚ) (q : α) (l : List α) :
    best1 score q l ∈ q :: l := by
  induction l generalizing q with
  | nil => simp [best1]
  | cons p rest ih =>
    simp only [best1]
    have hx := ih (if score p > score q then p else q)
    rcases List.mem_cons.mp hx with he | hm
    · rw [he]
      by_cases h : score p > score q <;> simp [h]
    · simp [List.mem_cons_of_mem, hm]

/-- The first-encountered maximum dominates every element. -/
theorem best1_ge {α : Type} (score : α → ℚ) (q : α) (l : List α) :
    ∀ x ∈ q :: l, score x ≤ score (best1 score q l) := by
  induction l generalizing q with
  | nil =>
    intro x hx
    simp only [List.mem_singleton] at hx
    simp [best1, hx]
  | cons p rest ih =>
    intro x hx
    simp only [best1]
    have hq : score q ≤ score (if score p > score q then p else q) := by
      by_cases h : score p > score q
      · rw [if_pos h]; linarith
      · rw [if_neg h]
    have hp : score p ≤ score (if score p > score q then p else q) := by
      by_cases h : score p > score q
      · rw [if_pos h]
      · rw [if_neg h]; linarith [not_lt.mp h]
    have hmem0 : (if score p > score q then p else q) ∈
        (if score p > score q then p else q) :: rest :=
      List.mem_cons_self _ _
    have hself := ih (if score p > score q then p else q)
      (if score p > score q then p else q) hmem0
    rcases List.mem_cons.mp hx with he | hm
    · subst he
      exact le_trans hq hself
    · rcases List.mem_cons.mp hm with he2 | hm2
      · subst he2
        exact le_trans hp hself
      · exact ih (if score p > score q then p else q) x (List.mem_cons_of_mem _ hm2)

/-- One processDocument loop iteration adds one to the field counter and at
most one to the success counter. -/
theorem processRule_counts (env : JsEnv) (maps : List HardcodedMapping)
    (text : String) (structured : StructuredData)
    (st : TemplateEngine.LoopState) (rule : ExtractionRule) :
    (TemplateEngine.processRule env maps text structured st rule).totalFields =
      st.totalFields + 1 ∧
    ((TemplateEngine.processRule env maps text structured st rule).successfulExtractions =
        st.successfulExtractions ∨
      (TemplateEngine.processRule env maps text structured st rule).successfulExtractions =
        st.successfulExtractions + 1) := by
  simp only [TemplateEngine.processRule]
  cases h : TemplateEngine.extractField env rule text structured with
  | error msg => simp
  | ok o =>
    cases o with
    | none =>
      by_cases hreq : (rule.validation.map (fun v => v.required)).getD false = true <;>
        simp [hreq]
    | some v =>
      by_cases hv : (TemplateEngine.validateField env rule
          (some (TemplateEngine.applyHardcodedMappings maps rule.fieldName v))).1 = true <;>
        simp [hv]

/-- Over the whole rule loop the success counter stays below the field
counter. -/
theorem foldl_succ_le_total (env : JsEnv) (maps : List HardcodedMapping)
    (text : String) (structured : StructuredData) (rules : List ExtractionRule)
    (st : TemplateEngine.LoopState)
    (h : st.successfulExtractions ≤ st.totalFields) :
    (rules.foldl (TemplateEngine.processRule env maps text structured) st).successfulExtractions ≤
      (rules.foldl (TemplateEngine.processRule env maps text structured) st).totalFields := by
  induction rules generalizing st with
  | nil => simpa
  | cons r rest ih =>
    simp only [List.foldl]
    apply ih
    obtain ⟨ht, hs⟩ := processRule_counts env maps text structured st r
    rcases hs with hs | hs <;> omega

/-- Claim C5: under nonnegative configured pattern weights, the confidence
of every detectCustomer result and of every template-engine
processDocument result lies in the closed unit interval. -/
theorem c5_confidence_bounds (env : JsEnv)
    (customers : List (Customer × List DetectionPattern)) (text : String)
    (fileName : Option String) (template : Template) (text2 : String)
    (structured : StructuredData)
    (hw : ∀ cp ∈ customers, ∀ p ∈ cp.2, 0 ≤ p.weight) :
    (0 ≤ (CustomerDetector.detectCustomer customers env text fileName).confidence ∧
     (CustomerDetector.detectCustomer customers env text fileName).confidence ≤ 1) ∧
    (0 ≤ (TemplateEngine.processDocument env template text2 structured).confidence ∧
     (TemplateEngine.processDocument env template text2 structured).confidence ≤ 1) := by
  constructor
  · rw [CustomerDetector.detectCustomer]
    cases hc : CustomerDetector.candidateResults customers env text fileName with
    | nil => norm_num
    | cons r rest =>
      have hmem : best1 (fun x => x.confidence) r rest ∈
          CustomerDetector.candidateResults customers env text fileName := by
        rw [hc]
        exact best1_mem _ r rest
      exact candidateResults_bounds customers env text fileName hw _ hmem
  · simp only [TemplateEngine.processDocument]
    set st := template.extractionRules.foldl
      (TemplateEngine.processRule env template.hardcodedMappings text2 structured)
      { data := [], errors := [], warnings := [], totalFields := 0
        successfulExtractions := 0 } with hst
    have hle : st.successfulExtractions ≤ st.totalFields := by
      rw [hst]
      exact foldl_succ_le_total env template.hardcodedMappings text2 structured
        template.extractionRules _ (by simp)
    by_cases hpos : st.totalFields > 0
    · have hq : (0 : ℚ) < (st.totalFields : ℚ) := by exact_mod_cast hpos
      rw [if_pos hpos]
      constructor
      · positivity
      · rw [div_le_one hq]
        exact_mod_cast hle
    · rw [if_neg hpos]
      norm_num

unseal Rat.mul Rat.inv Rat.add Rat.sub in
/-- Claim C5 witness at a concrete customer configuration with positive
weights and the sample template. -/
theorem c5_witness :
    (∀ cp ∈ customersW, ∀ p ∈ cp.2, 0 ≤ p.weight) ∧
    ((0 ≤ (CustomerDetector.detectCustomer customersW envTrivial
        "acme corporation invoice" (some "acme.pdf")).confidence ∧
      (CustomerDetector.detectCustomer customersW envTrivial
        "acme corporation invoice" (some "acme.pdf")).confidence ≤ 1) ∧
     (0 ≤ (TemplateEngine.processDocument envTrivial templateValidationW
        sampleInvoiceText structuredEmpty).confidence ∧
      (TemplateEngine.processDocument envTrivial templateValidationW
        sampleInvoiceText structuredEmpty).confidence ≤ 1)) :=
  ⟨by decide,
   c5_confidence_bounds envTrivial customersW "acme corporation invoice"
     (some "acme.pdf") templateValidationW sampleInvoiceText structuredEmpty
     (by decide)⟩

/-- The score/counter fold of scoreTemplate accumulates the per-rule point
sum and the rule count. -/
theorem scoreFold_eq (env : JsEnv) (text : String) (l : List ExtractionRule)
    (a : ℚ) (n : Nat) :
    l.foldl (fun (p : ℚ × Nat) r =>
      (p.1 + TemplateEngine.rulePoints env text r, p.2 + 1)) (a, n) =
      (a + (l.map (TemplateEngine.rulePoints env text)).sum, n + l.length) := by
  induction l generalizing a n with
  | nil => simp
  | cons r rest ih =>
    simp only [List.foldl, List.map, List.sum_cons, List.length_cons]
    rw [ih, Prod.mk.injEq]
    constructor <;> [ring; omega]

/-- scoreTemplate equals the claimed points over ruleCount-plus-three
formula. -/
theorem scoreTemplate_eq (env : JsEnv) (t : Template) (text : String) :
    TemplateEngine.scoreTemplate env t text =
      ((t.extractionRules.map (TemplateEngine.rulePoints env text)).sum +
        TemplateEngine.nameBonus t text) /
        ((t.extractionRules.length : ℚ) + 3) := by
  simp only [TemplateEngine.scoreTemplate]
  rw [scoreFold_eq]
  simp only [gt_iff_lt]
  rw [if_pos (by omega)]
  push_cast
  ring

/-- Claim C4: selectTemplate returns the customer's single active template
unconditionally when exactly one exists; each template's score is the
point sum over ruleCount plus three; and with two or more templates the
highest-scoring template wins when its score exceeds 0.3, with the first
template of the customer's list as the fallback. -/
theorem c4_template_selection (env : JsEnv) (templates : List Template)
    (customerId : String) (text : String) :
    (∀ t, templates.filter (fun x => x.customerId == customerId) = [t] →
      TemplateEngine.selectTemplate env templates customerId text = some t) ∧
    (∀ t, TemplateEngine.scoreTemplate env t text =
      ((t.extractionRules.map (TemplateEngine.rulePoints env text)).sum +
        TemplateEngine.nameBonus t text) / ((t.extractionRules.length : ℚ) + 3)) ∧
    (∀ t t2 rest, templates.filter (fun x => x.customerId == customerId) =
        t :: t2 :: rest →
      ∃ b ∈ t :: t2 :: rest,
        (∀ u ∈ t :: t2 :: rest,
          TemplateEngine.scoreTemplate env u text ≤
            TemplateEngine.scoreTemplate env b text) ∧
        TemplateEngine.selectTemplate env templates customerId text =
          (if 3/10 < TemplateEngine.scoreTemplate env b text then some b
           else some t)) := by
  refine ⟨?_, fun t => scoreTemplate_eq env t text, ?_⟩
  · intro t h
    simp [TemplateEngine.selectTemplate, h]
  · intro t t2 rest h
    have hmem := best1_mem (fun x : Template × ℚ => x.2)
      (t, TemplateEngine.scoreTemplate env t text)
      ((t2 :: rest).map (fun tp => (tp, TemplateEngine.scoreTemplate env tp text)))
    have hmem2 : best1 (fun x : Template × ℚ => x.2)
        (t, TemplateEngine.scoreTemplate env t text)
        ((t2 :: rest).map (fun tp => (tp, TemplateEngine.scoreTemplate env tp text))) ∈
        (t :: t2 :: rest).map (fun tp => (tp, TemplateEngine.scoreTemplate env tp text)) := by
      simpa using hmem
    obtain ⟨u, hu, hueq⟩ := List.mem_map.mp hmem2
    refine ⟨u, hu, ?_, ?_⟩
    · intro w hw
      have hwmem : (w, TemplateEngine.scoreTemplate env w text) ∈
          (t, TemplateEngine.scoreTemplate env t text) ::
            (t2 :: rest).map (fun tp => (tp, TemplateEngine.scoreTemplate env tp text)) := by
        have : (w, TemplateEngine.scoreTemplate env w text) ∈
            (t :: t2 :: rest).map (fun tp => (tp, TemplateEngine.scoreTemplate env tp text)) :=
          List.mem_map_of_mem _ hw
        simpa using this
      have hle := best1_ge (fun x : Template × ℚ => x.2)
        (t, TemplateEngine.scoreTemplate env t text)
        ((t2 :: rest).map (fun tp => (tp, TemplateEngine.scoreTemplate env tp text)))
        (w, TemplateEngine.scoreTemplate env w text) hwmem
      rw [← hueq] at hle
      simpa using hle
    · simp only [TemplateEngine.selectTemplate, h, List.map_cons]
      simp only [List.map_cons] at hueq
      rw [← hueq]

/-- Claim C4 witness: a singleton template list is returned unconditionally,
and a two-template list goes through the scoring branch. -/
theorem c4_witness :
    TemplateEngine.selectTemplate envTrivial [templateInvoiceA] "c1"
      sampleInvoiceText = some templateInvoiceA ∧
    (∃ b ∈ templateInvoiceA :: templateOtherB :: [],
      (∀ u ∈ templateInvoiceA :: templateOtherB :: [],
        TemplateEngine.scoreTemplate envTrivial u sampleInvoiceText ≤
          TemplateEngine.scoreTemplate envTrivial b sampleInvoiceText) ∧
      TemplateEngine.selectTemplate envTrivial [templateInvoiceA, templateOtherB]
          "c1" sampleInvoiceText =
        (if 3/10 < TemplateEngine.scoreTemplate envTrivial b sampleInvoiceText
         then some b else some templateInvoiceA)) :=
  ⟨(c4_template_selection envTrivial [templateInvoiceA] "c1" sampleInvoiceText).1
      templateInvoiceA (by decide),
   (c4_template_selection envTrivial [templateInvoiceA, templateOtherB] "c1"
      sampleInvoiceText).2.2 templateInvoiceA templateOtherB [] (by decide)⟩

/-- First-match loop characterization for a priority-descending list in
which exactly two mappings match: the strictly higher-priority one is
applied. -/
theorem applyGo_pair (vstr : String) (value : JsVal) :
    ∀ (l : List HardcodedMapping) (m1 m2 : HardcodedMapping),
    l.Pairwise (fun a b => b.priority ≤ a.priority) →
    m1 ∈ l → m2 ∈ l →
    TemplateEngine.mappingMatches m1 vstr = true →
    TemplateEngine.mappingMatches m2 vstr = true →
    m2.priority < m1.priority →
    (∀ m ∈ l, TemplateEngine.mappingMatches m vstr = true → m = m1 ∨ m = m2) →
    TemplateEngine.applyGo vstr value l = JsVal.str m1.targetValue := by
  intro l
  induction l with
  | nil =>
    intro m1 m2 _ hm1 _ _ _ _ _
    simp at hm1
  | cons hmap t ih =>
    intro m1 m2 hp hm1 hm2 hma1 hma2 hlt honly
    simp only [TemplateEngine.applyGo]
    by_cases hh : TemplateEngine.mappingMatches hmap vstr = true
    · rw [if_pos hh]
      rcases honly hmap (List.mem_cons_self _ _) hh with he | he
    
      · rw [he]
      · exfalso
        rcases List.mem_cons.mp hm1 with he1 | hm1t
        · rw [he1, he] at hlt
          exact lt_irrefl _ hlt
        · have hle := (List.pairwise_cons.mp hp).1 m1 hm1t
          rw [he] at hle
          exact absurd hle (not_le.mpr hlt)
    · rw [if_neg hh]
      have hm1t : m1 ∈ t := by
        rcases List.mem_cons.mp hm1 with he1 | hm1t
        · exact absurd (he1 ▸ hma1) hh
        · exact hm1t
      have hm2t : m2 ∈ t := by
        rcases List.mem_cons.mp hm2 with he2 | hm2t
        · exact absurd (he2 ▸ hma2) hh
        · exact hm2t
      exact ih m1 m2 (List.pairwise_cons.mp hp).2 hm1t hm2t hma1 hma2 hlt
        (fun m hm hma => honly m (List.mem_cons_of_mem _ hm) hma)

/-- Claim C3: over a mapping list sorted by priority descending (the order
produced at template load), when exactly two mappings on a field both
match the extracted value, applyHardcodedMappings returns the targetValue
of the one with the strictly higher priority. -/
theorem c3_mapping_priority (mappings : List HardcodedMapping) (fieldName : String)
    (value : JsVal) (m1 m2 : HardcodedMapping)
    (hsorted : mappings.Pairwise (fun a b => b.priority ≤ a.priority))
    (hm1 : m1 ∈ mappings) (hm2 : m2 ∈ mappings)
    (hf1 : m1.fieldName = fieldName) (hf2 : m2.fieldName = fieldName)
    (hma1 : TemplateEngine.mappingMatches m1 (jsLower (jsString value)) = true)
    (hma2 : TemplateEngine.mappingMatches m2 (jsLower (jsString value)) = true)
    (hlt : m2.priority < m1.priority)
    (honly : ∀ m ∈ mappings, m.fieldName = fieldName →
      TemplateEngine.mappingMatches m (jsLower (jsString value)) = true →
      m = m1 ∨ m = m2) :
    TemplateEngine.applyHardcodedMappings mappings fieldName value =
      JsVal.str m1.targetValue := by
  rw [TemplateEngine.applyHardcodedMappings]
  apply applyGo_pair (jsLower (jsString value)) value
    (mappings.filter (fun m => m.fieldName == fieldName)) m1 m2
  · exact List.Pairwise.filter _ hsorted
  · exact List.mem_filter.mpr ⟨hm1, by simp [hf1]⟩
  · exact List.mem_filter.mpr ⟨hm2, by simp [hf2]⟩
  · exact hma1
  · exact hma2
  · exact hlt
  · intro m hm hma
    have hmf := List.mem_filter.mp hm
    exact honly m hmf.1 (by simpa using hmf.2) hma

/-- Claim C3 witness: two matching mappings on one field with priorities
seven and three; the priority-seven target is applied. -/
theorem c3_witness :
    ([mappingAlphaHigh, mappingAlphaLow].Pairwise
      (fun a b => b.priority ≤ a.priority)) ∧
    TemplateEngine.mappingMatches mappingAlphaHigh
      (jsLower (jsString (JsVal.str "alphabet"))) = true ∧
    TemplateEngine.mappingMatches mappingAlphaLow
      (jsLower (jsString (JsVal.str "alphabet"))) = true ∧
    mappingAlphaLow.priority < mappingAlphaHigh.priority ∧
    TemplateEngine.applyHardcodedMappings [mappingAlphaHigh, mappingAlphaLow] "f"
      (JsVal.str "alphabet") = JsVal.str "A" :=
  ⟨by decide, by decide, by decide, by decide,
   c3_mapping_priority [mappingAlphaHigh, mappingAlphaLow] "f"
     (JsVal.str "alphabet") mappingAlphaHigh mappingAlphaLow
     (by decide) (by decide) (by decide) rfl rfl (by decide) (by decide)
     (by decide) (by decide)⟩

/-- Lookup through an in-place update at a different key. -/
theorem lookupAssoc_map_update_ne (l : List (String × JsVal)) (k k2 : String)
    (v : JsVal) (h : k2 ≠ k) :
    TemplateEngine.lookupAssoc (l.map (fun p => if p.1 == k2 then (k2, v) else p)) k =
      TemplateEngine.lookupAssoc l k := by
  induction l with
  | nil => simp [TemplateEngine.lookupAssoc]
  | cons p t ih =>
    simp only [List.map_cons]
    by_cases hp : p.1 = k2
    · have h3 : ((p.1 == k) = true) → False := by
        intro hc
        exact h (hp ▸ beq_iff_eq.mp hc)
      rw [if_pos (beq_iff_eq.mpr hp)]
      simp only [TemplateEngine.lookupAssoc]
      rw [List.find?_cons_of_neg _ (by simp [h]), List.find?_cons_of_neg _ (by simp; intro hc; exact h3 (beq_iff_eq.mpr hc))]
      exact ih
    · rw [if_neg (by simpa using hp)]
      by_cases hk : p.1 = k
      · simp only [TemplateEngine.lookupAssoc]
        rw [List.find?_cons_of_pos _ (by simpa using hk),
          List.find?_cons_of_pos _ (by simpa using hk)]
      · simp only [TemplateEngine.lookupAssoc]
        rw [List.find?_cons_of_neg _ (by simpa using hk),
          List.find?_cons_of_neg _ (by simpa using hk)]
        exact ih

/-- Lookup through an in-place update at the updated key. -/
theorem lookupAssoc_map_update_self (l : List (String × JsVal)) (k : String)
    (v : JsVal) (hany : l.any (fun p => p.1 == k) = true) :
    TemplateEngine.lookupAssoc (l.map (fun p => if p.1 == k then (k, v) else p)) k =
      some v := by
  induction l with
  | nil => simp at hany
  | cons p t ih =>
    simp only [List.map_cons]
    by_cases hp : p.1 = k
    · rw [if_pos (beq_iff_eq.mpr hp)]
      simp only [TemplateEngine.lookupAssoc]
      rw [List.find?_cons_of_pos _ (by simp)]
      simp
    · have hp2 : (p.1 == k) = false := beq_eq_false_iff_ne.mpr hp
      have hany2 : t.any (fun p => p.1 == k) = true := by
        simp only [List.any_cons, hp2, Bool.false_or] at hany
        exact hany
      rw [if_neg (by simpa using hp)]
      simp only [TemplateEngine.lookupAssoc]
      rw [List.find?_cons_of_neg _ (by simpa using hp)]
      exact ih hany2

/-- Lookup through an appended entry at a different key. -/
theorem lookupAssoc_append_ne (l : List (String × JsVal)) (k k2 : String)
    (v : JsVal) (h : k2 ≠ k) :
    TemplateEngine.lookupAssoc (l ++ [(k2, v)]) k = TemplateEngine.lookupAssoc l k := by
  induction l with
  | nil =>
    simp only [List.nil_append, TemplateEngine.lookupAssoc]
    rw [List.find?_cons_of_neg _ (by simp [h])]
  | cons p t ih =>
    simp only [List.cons_append, TemplateEngine.lookupAssoc]
    by_cases hk : p.1 = k
    · rw [List.find?_cons_of_pos _ (by simpa using hk),
        List.find?_cons_of_pos _ (by simpa using hk)]
    · rw [List.find?_cons_of_neg _ (by simpa using hk),
        List.find?_cons_of_neg _ (by simpa using hk)]
      exact ih

/-- Lookup through an appended entry at its key, when the key is new. -/
theorem lookupAssoc_append_self (l : List (String × JsVal)) (k : String)
    (v : JsVal) (hany : l.any (fun p => p.1 == k) = false) :
    TemplateEngine.lookupAssoc (l ++ [(k, v)]) k = some v := by
  induction l with
  | nil =>
    simp only [List.nil_append, TemplateEngine.lookupAssoc]
    rw [List.find?_cons_of_pos _ (by simp)]
    simp
  | cons p t ih =>
    simp only [List.any_cons, Bool.or_eq_false_iff] at hany
    simp only [List.cons_append, TemplateEngine.lookupAssoc]
    rw [List.find?_cons_of_neg _ (by simp [hany.1])]
    exact ih hany.2

/-- updateAssoc stores the new value at its key. -/
theorem lookupAssoc_updateAssoc_self (l : List (String × JsVal)) (k : String)
    (v : JsVal) :
    TemplateEngine.lookupAssoc (TemplateEngine.updateAssoc l k v) k = some v := by
  rw [TemplateEngine.updateAssoc]
  by_cases hany : l.any (fun p => p.1 == k) = true
  · rw [if_pos hany]
    exact lookupAssoc_map_update_self l k v hany
  · rw [if_neg hany]
    refine lookupAssoc_append_self l k v ?_
    rw [← Bool.not_eq_true]
    exact hany

/-- updateAssoc leaves other keys untouched. -/
theorem lookupAssoc_updateAssoc_ne (l : List (String × JsVal)) (k k2 : String)
    (v : JsVal) (h : k2 ≠ k) :
    TemplateEngine.lookupAssoc (TemplateEngine.updateAssoc l k2 v) k =
      TemplateEngine.lookupAssoc l k := by
  rw [TemplateEngine.updateAssoc]
  by_cases hany : l.any (fun p => p.1 == k2) = true
  · rw [if_pos hany]
    exact lookupAssoc_map_update_ne l k k2 v h
  · rw [if_neg hany]
    exact lookupAssoc_append_ne l k k2 v h

/-- The loop step only appends to the error list. -/
theorem processRule_errors_mono (env : JsEnv) (maps : List HardcodedMapping)
    (text : String) (structured : StructuredData) (st : TemplateEngine.LoopState)
    (rule : ExtractionRule) (x : String) (hx : x ∈ st.errors) :
    x ∈ (TemplateEngine.processRule env maps text structured st rule).errors := by
  simp only [TemplateEngine.processRule]
  cases h : TemplateEngine.extractField env rule text structured with
  | error msg => exact List.mem_append_left _ hx
  | ok o =>
    cases o with
    | none =>
      by_cases hreq : (rule.validation.map (fun v => v.required)).getD false = true <;>
        simp only [hreq, if_true, if_false, Bool.false_eq_true, ite_true, ite_false] <;>
        first
          | exact List.mem_append_left _ hx
          | exact hx
    | some v =>
      by_cases hv : (TemplateEngine.validateField env rule
          (some (TemplateEngine.applyHardcodedMappings maps rule.fieldName v))).1 = true <;>
        simp only [hv, if_true, if_false, Bool.false_eq_true, ite_true, ite_false] <;>
        exact hx

/-- The loop step only appends to the warning list. -/
theorem processRule_warnings_mono (env : JsEnv) (maps : List HardcodedMapping)
    (text : String) (structured : StructuredData) (st : TemplateEngine.LoopState)
    (rule : ExtractionRule) (x : String) (hx : x ∈ st.warnings) :
    x ∈ (TemplateEngine.processRule env maps text structured st rule).warnings := by
  simp only [TemplateEngine.processRule]
  cases h : TemplateEngine.extractField env rule text structured with
  | error msg => exact hx
  | ok o =>
    cases o with
    | none =>
      by_cases hreq : (rule.validation.map (fun v => v.required)).getD false = true <;>
        simp only [hreq, if_true, if_false, Bool.false_eq_true, ite_true, ite_false] <;>
        first
          | exact List.mem_append_left _ hx
          | exact hx
    | some v =>
      by_cases hv : (TemplateEngine.validateField env rule
          (some (TemplateEngine.applyHardcodedMappings maps rule.fieldName v))).1 = true <;>
        simp only [hv, if_true, if_false, Bool.false_eq_true, ite_true, ite_false] <;>
        first
          | exact List.mem_append_left _ hx
          | exact hx

/-- The loop step writes only its own field name into the record. -/
theorem processRule_data_other (env : JsEnv) (maps : List HardcodedMapping)
    (text : String) (structured : StructuredData) (st : TemplateEngine.LoopState)
    (rule : ExtractionRule) (k : String) (hne : rule.fieldName ≠ k) :
    TemplateEngine.lookupAssoc
        (TemplateEngine.processRule env maps text structured st rule).data k =
      TemplateEngine.lookupAssoc st.data k := by
  simp only [TemplateEngine.processRule]
  cases h : TemplateEngine.extractField env rule text structured with
  | error msg => rfl
  | ok o =>
    cases o with
    | none =>
      by_cases hreq : (rule.validation.map (fun v => v.required)).getD false = true <;>
        simp only [hreq, if_true, if_false, Bool.false_eq_true, ite_true, ite_false]
    | some v =>
      by_cases hv : (TemplateEngine.validateField env rule
          (some (TemplateEngine.applyHardcodedMappings maps rule.fieldName v))).1 = true <;>
        simp only [hv, if_true, if_false, Bool.false_eq_true, ite_true, ite_false] <;>
        exact lookupAssoc_updateAssoc_ne st.data k rule.fieldName _ hne

/-- Error membership survives the rest of the rule loop. -/
theorem foldl_errors_mono (env : JsEnv) (maps : List HardcodedMapping)
    (text : String) (structured : StructuredData) (rules : List ExtractionRule)
    (st : TemplateEngine.LoopState) (x : String) (hx : x ∈ st.errors) :
    x ∈ (rules.foldl (TemplateEngine.processRule env maps text structured) st).errors := by
  induction rules generalizing st with
  | nil => simpa
  | cons r rest ih =>
    exact ih _ (processRule_errors_mono env maps text structured st r x hx)

/-- Warning membership survives the rest of the rule loop. -/
theorem foldl_warnings_mono (env : JsEnv) (maps : List HardcodedMapping)
    (text : String) (structured : StructuredData) (rules : List ExtractionRule)
    (st : TemplateEngine.LoopState) (x : String) (hx : x ∈ st.warnings) :
    x ∈ (rules.foldl (TemplateEngine.processRule env maps text structured) st).warnings := by
  induction rules generalizing st with
  | nil => simpa
  | cons r rest ih =>
    exact ih _ (processRule_warnings_mono env maps text structured st r x hx)

/-- A record key no later rule writes keeps its value over the rest of the
loop. -/
theorem foldl_data_frozen (env : JsEnv) (maps : List HardcodedMapping)
    (text : String) (structured : StructuredData) (rules : List ExtractionRule)
    (st : TemplateEngine.LoopState) (k : String)
    (hk : ∀ r ∈ rules, r.fieldName ≠ k) :
    TemplateEngine.lookupAssoc
        ((rules.foldl (TemplateEngine.processRule env maps text structured) st)).data k =
      TemplateEngine.lookupAssoc st.data k := by
  induction rules generalizing st with
  | nil => rfl
  | cons r rest ih =>
    simp only [List.foldl]
    rw [ih _ (fun r2 hr2 => hk r2 (List.mem_cons_of_mem _ hr2))]
    exact processRule_data_other env maps text structured st r k
      (hk r (List.mem_cons_self _ _))

/-- Claim C2: in the rule loop, a required rule whose extraction yields no
value records exactly one error (no warning, no record write) and forces
success to false; a rule whose extracted value fails validation records
exactly one warning (no error) while the possibly invalid value is still
written into the extracted record. -/
theorem c2_validation_severity (env : JsEnv) (tpl : Template) (text : String)
    (structured : StructuredData) (pre post : List ExtractionRule)
    (rule : ExtractionRule)
    (hrules : tpl.extractionRules = pre ++ rule :: post) :
    (TemplateEngine.extractField env rule text structured = .ok none →
      (rule.validation.map (fun v => v.required)).getD false = true →
      (∀ s : TemplateEngine.LoopState,
        (TemplateEngine.processRule env tpl.hardcodedMappings text structured s rule).errors =
          s.errors ++
            ["Required field \x27" ++ rule.fieldName ++ "\x27 could not be extracted"] ∧
        (TemplateEngine.processRule env tpl.hardcodedMappings text structured s rule).warnings =
          s.warnings ∧
        (TemplateEngine.processRule env tpl.hardcodedMappings text structured s rule).data =
          s.data) ∧
      ("Required field \x27" ++ rule.fieldName ++ "\x27 could not be extracted") ∈
        (TemplateEngine.processDocument env tpl text structured).errors ∧
      (TemplateEngine.processDocument env tpl text structured).success = false) ∧
    (∀ v : JsVal,
      TemplateEngine.extractField env rule text structured = .ok (some v) →
      (TemplateEngine.validateField env rule
        (some (TemplateEngine.applyHardcodedMappings tpl.hardcodedMappings
          rule.fieldName v))).1 = false →
      (∀ s : TemplateEngine.LoopState,
        (TemplateEngine.processRule env tpl.hardcodedMappings text structured s rule).warnings =
          s.warnings ++
            ["Validation failed for " ++ rule.fieldName ++ ": " ++
              joinSep ", " (TemplateEngine.validateField env rule
                (some (TemplateEngine.applyHardcodedMappings tpl.hardcodedMappings
                  rule.fieldName v))).2] ∧
        (TemplateEngine.processRule env tpl.hardcodedMappings text structured s rule).errors =
          s.errors ∧
        (TemplateEngine.processRule env tpl.hardcodedMappings text structured s rule).data =
          TemplateEngine.updateAssoc s.data rule.fieldName
            (TemplateEngine.applyHardcodedMappings tpl.hardcodedMappings
              rule.fieldName v)) ∧
      ("Validation failed for " ++ rule.fieldName ++ ": " ++
          joinSep ", " (TemplateEngine.validateField env rule
            (some (TemplateEngine.applyHardcodedMappings tpl.hardcodedMappings
              rule.fieldName v))).2) ∈
        (TemplateEngine.processDocument env tpl text structured).warnings ∧
      ((∀ r2 ∈ post, r2.fieldName ≠ rule.fieldName) →
        TemplateEngine.lookupAssoc
            (TemplateEngine.processDocument env tpl text structured).extractedData
            rule.fieldName =
          some (TemplateEngine.applyHardcodedMappings tpl.hardcodedMappings
            rule.fieldName v))) := by
  constructor
  · intro hex hreq
    have hstep : ∀ s : TemplateEngine.LoopState,
        (TemplateEngine.processRule env tpl.hardcodedMappings text structured s rule).errors =
          s.errors ++
            ["Required field \x27" ++ rule.fieldName ++ "\x27 could not be extracted"] ∧
        (TemplateEngine.processRule env tpl.hardcodedMappings text structured s rule).warnings =
          s.warnings ∧
        (TemplateEngine.processRule env tpl.hardcodedMappings text structured s rule).data =
          s.data := by
      intro s
      refine ⟨?_, ?_, ?_⟩ <;> simp [TemplateEngine.processRule, hex, hreq]
    have hmem : ("Required field \x27" ++ rule.fieldName ++
        "\x27 could not be extracted") ∈
        (tpl.extractionRules.foldl
          (TemplateEngine.processRule env tpl.hardcodedMappings text structured)
          { data := [], errors := [], warnings := [], totalFields := 0
            successfulExtractions := 0 }).errors := by
      rw [hrules, List.foldl_append, List.foldl_cons]
      apply foldl_errors_mono
      rw [(hstep _).1]
      exact List.mem_append_right _ (by simp)
    refine ⟨hstep, ?_, ?_⟩
    · simpa [TemplateEngine.processDocument] using hmem
    · have hne : (tpl.extractionRules.foldl
          (TemplateEngine.processRule env tpl.hardcodedMappings text structured)
          { data := [], errors := [], warnings := [], totalFields := 0
            successfulExtractions := 0 }).errors.isEmpty = false := by
        rw [List.isEmpty_eq_false_iff_exists_mem]
        exact ⟨_, hmem⟩
      simp [TemplateEngine.processDocument, hne]
  · intro v hex hval
    have hstep : ∀ s : TemplateEngine.LoopState,
        (TemplateEngine.processRule env tpl.hardcodedMappings text structured s rule).warnings =
          s.warnings ++
            ["Validation failed for " ++ rule.fieldName ++ ": " ++
              joinSep ", " (TemplateEngine.validateField env rule
                (some (TemplateEngine.applyHardcodedMappings tpl.hardcodedMappings
                  rule.fieldName v))).2] ∧
        (TemplateEngine.processRule env tpl.hardcodedMappings text structured s rule).errors =
          s.errors ∧
        (TemplateEngine.processRule env tpl.hardcodedMappings text structured s rule).data =
          TemplateEngine.updateAssoc s.data rule.fieldName
            (TemplateEngine.applyHardcodedMappings tpl.hardcodedMappings
              rule.fieldName v) := by
      intro s
      refine ⟨?_, ?_, ?_⟩ <;> simp [TemplateEngine.processRule, hex, hval]
    have hmemw : ("Validation failed for " ++ rule.fieldName ++ ": " ++
        joinSep ", " (TemplateEngine.validateField env rule
          (some (TemplateEngine.applyHardcodedMappings tpl.hardcodedMappings
            rule.fieldName v))).2) ∈
        (tpl.extractionRules.foldl
          (TemplateEngine.processRule env tpl.hardcodedMappings text structured)
          { data := [], errors := [], warnings := [], totalFields := 0
            successfulExtractions := 0 }).warnings := by
      rw [hrules, List.foldl_append, List.foldl_cons]
      apply foldl_warnings_mono
      rw [(hstep _).1]
      exact List.mem_append_right _ (by simp)
    refine ⟨hstep, ?_, ?_⟩
    · simpa [TemplateEngine.processDocument] using hmemw
    · intro hpost
      have hlk : TemplateEngine.lookupAssoc
          (tpl.extractionRules.foldl
            (TemplateEngine.processRule env tpl.hardcodedMappings text structured)
            { data := [], errors := [], warnings := [], totalFields := 0
              successfulExtractions := 0 }).data rule.fieldName =
          some (TemplateEngine.applyHardcodedMappings tpl.hardcodedMappings
            rule.fieldName v) := by
        rw [hrules, List.foldl_append, List.foldl_cons]
        rw [foldl_data_frozen env tpl.hardcodedMappings text structured post _
          rule.fieldName hpost]
        rw [(hstep _).2.2]
        exact lookupAssoc_updateAssoc_self _ _ _
      simpa [TemplateEngine.processDocument] using hlk

/-- Claim C2 witness: in the sample template the required rule with no
match yields the error and success false, and the minimum-length failure
yields the warning while the value is still recorded. -/
theorem c2_witness :
    ("Required field \x27" ++ ruleRequiredMissing.fieldName ++
        "\x27 could not be extracted") ∈
      (TemplateEngine.processDocument envTrivial templateValidationW
        sampleInvoiceText structuredEmpty).errors ∧
    (TemplateEngine.processDocument envTrivial templateValidationW
      sampleInvoiceText structuredEmpty).success = false ∧
    ("Validation failed for " ++ ruleDateMinLen.fieldName ++ ": " ++
        joinSep ", " (TemplateEngine.validateField envTrivial ruleDateMinLen
          (some (TemplateEngine.applyHardcodedMappings
            templateValidationW.hardcodedMappings ruleDateMinLen.fieldName
            (JsVal.str "2024-01-05")))).2) ∈
      (TemplateEngine.processDocument envTrivial templateValidationW
        sampleInvoiceText structuredEmpty).warnings ∧
    TemplateEngine.lookupAssoc
        (TemplateEngine.processDocument envTrivial templateValidationW
          sampleInvoiceText structuredEmpty).extractedData
        ruleDateMinLen.fieldName =
      some (TemplateEngine.applyHardcodedMappings
        templateValidationW.hardcodedMappings ruleDateMinLen.fieldName
        (JsVal.str "2024-01-05")) := by
  have ha := (c2_validation_severity envTrivial templateValidationW
    sampleInvoiceText structuredEmpty [] [ruleDateMinLen] ruleRequiredMissing
    rfl).1 rfl rfl
  have hb := (c2_validation_severity envTrivial templateValidationW
    sampleInvoiceText structuredEmpty [ruleRequiredMissing] [] ruleDateMinLen
    rfl).2 (JsVal.str "2024-01-05") rfl rfl
  exact ⟨ha.2.1, ha.2.2, hb.2.1, hb.2.2 (by simp)⟩
